import Mathlib

/-!
# Peloton catalog and logical-tile materialization: a shallow embedding

This file embeds, in Lean 4, the metadata catalog of the Peloton storage
engine (`src/catalog/catalog.cpp`) together with the logical-tile
materialization operator (plan node `planner/materialization_node.cpp` and
its test file), and proves properties of the embedded operations.

Modelling conventions:
* C++ `oid_t` values are `Nat`; the sentinel `INVALID_OID` is `0`, and every
  oid handed out by a catalog counter is positive.
* A function that can dereference a null pointer is embedded with result type
  `Option _`; `none` marks the undefined behavior.
* The typed accessor objects over the system-catalog tables
  (`DatabaseCatalog`, `TableCatalog`, `ColumnCatalog`, `IndexCatalog`), the
  storage objects (`storage::Database`, `storage::DataTable`) and small
  utilities (`StringUtil::Upper`, `Schema::CopySchema`) are declared in
  sources not present in this repository snapshot; they are modelled from the
  specification (each such definition carries a doc comment saying so).
  The control flow and mutation order of every DDL operation follow
  `catalog.cpp` line by line.
-/

/-- Result code of a DDL operation (`ResultType` in `common/types.h`,
restricted to the two values the catalog uses). -/
inductive ResultType where
  | SUCCESS
  | FAILURE
deriving DecidableEq, Repr

/-- A column descriptor (`catalog::Column`): its name and whether one of its
constraints flags it as part of the primary key (`Column::IsPrimary`).
Other attributes (value type, byte size, inlined flag) do not influence any
catalog control flow and are omitted. -/
structure Column where
  column_name : String
  is_primary : Bool
deriving DecidableEq, Repr

/-- A tuple schema (`catalog::Schema`) is its ordered column list; a column's
ordinal is its position in the list. -/
def Schema := List Column
deriving DecidableEq

/-- Modelled from the spec: `catalog::Schema::CopySchema(schema, key_attrs)`
builds the key sub-schema holding, in order, the columns of `schema` at the
requested ordinals. -/
def Schema.CopySchema (schema : List Column) (key_attrs : List Nat) : List Column :=
  key_attrs.filterMap (fun i => schema.get? i)

/-- Modelled from the spec: `StringUtil::Upper` upper-cases every character. -/
def StringUtil.Upper (s : String) : String :=
  ⟨s.data.map Char.toUpper⟩

/-- Index structure kind (`IndexType`); the catalog only ever requests
`BWTREE` (the ordered tree). -/
inductive IndexType where
  | BWTREE
  | HASH
deriving DecidableEq, Repr

/-- Index constraint kind (`IndexConstraintType`). -/
inductive IndexConstraintType where
  | PRIMARY_KEY
  | UNIQUE
  | DEFAULT
deriving DecidableEq, Repr

/-- The descriptor from which an index is constructed
(`index::IndexMetadata`), in constructor-argument order. The constructed
`index::Index` only wraps it, so the live index attached to a table is
represented by its metadata. -/
structure IndexMetadata where
  name : String
  oid : Nat
  table_oid : Nat
  database_oid : Nat
  index_type : IndexType
  index_constraint : IndexConstraintType
  key_schema : List Column
  key_attrs : List Nat
  unique_keys : Bool
deriving DecidableEq, Repr

/-- A live table object (`storage::DataTable`): identity, schema (owned), and
the indexes attached by `AddIndex`. -/
structure DataTable where
  oid : Nat
  name : String
  schema : List Column
  indexes : List IndexMetadata
deriving DecidableEq, Repr

/-- A live database object (`storage::Database`): identity and owned tables. -/
structure Database where
  oid : Nat
  name : String
  tables : List DataTable
deriving DecidableEq, Repr

/-- A row of the database catalog (`pg_database`): oid and name, the fields
`DatabaseCatalog::InsertDatabase` persists. -/
structure DatabaseTuple where
  oid : Nat
  name : String
deriving DecidableEq, Repr

/-- A row of the table catalog (`pg_table`), the fields
`TableCatalog::InsertTable` persists. -/
structure TableTuple where
  oid : Nat
  name : String
  database_oid : Nat
  database_name : String
deriving DecidableEq, Repr

/-- A row of the column catalog (`pg_attribute`), keyed by table oid and
column name as used by `ColumnCatalog::InsertColumn`/`DeleteColumn`; the
offset is modelled as the column's ordinal. -/
structure ColumnTuple where
  table_oid : Nat
  column_name : String
  offset : Nat
deriving DecidableEq, Repr

/-- A row of the index catalog (`pg_index`), the fields
`IndexCatalog::Insert` persists. -/
structure IndexTuple where
  oid : Nat
  name : String
  table_oid : Nat
  database_oid : Nat
  unique_keys : Bool
deriving DecidableEq, Repr

/-- The catalog singleton's state: the live object graph (`databases_`), the
four system-catalog tables, and the oid counters. The separate counters model
`DatabaseCatalog/TableCatalog/IndexCatalog::GetNextOid()` and the catalog's
own `GetNextOid()`; each starts at `1` so that no handed-out oid collides
with `INVALID_OID = 0`. -/
structure Catalog where
  databases : List Database
  pgDatabase : List DatabaseTuple
  pgTable : List TableTuple
  pgColumn : List ColumnTuple
  pgIndex : List IndexTuple
  database_oid_counter : Nat
  table_oid_counter : Nat
  index_oid_counter : Nat
  catalog_oid_counter : Nat
deriving DecidableEq, Repr

/-- The catalog state before any of the DDL operations under study; the
bootstrap of the `pg_catalog` database is outside the operations the claims
quantify over and is abstracted as an empty object graph. -/
def initState : Catalog :=
  { databases := [], pgDatabase := [], pgTable := [], pgColumn := [], pgIndex := []
    database_oid_counter := 1, table_oid_counter := 1
    index_oid_counter := 1, catalog_oid_counter := 1 }

/-- Replace the first element satisfying `p` by its image under `f` (the
effect of mutating, in C++, the object returned by a first-match lookup). -/
def updateFirst (p : α → Bool) (f : α → α) : List α → List α
  | [] => []
  | a :: rest => if p a then f a :: rest else a :: updateFirst p f rest

/-- Remove the first element satisfying `p` (the effect of `erase` on the
iterator of a first-match scan). -/
def removeFirst (p : α → Bool) : List α → List α
  | [] => []
  | a :: rest => if p a then rest else a :: removeFirst p rest

/-- Modelled from the spec: `DatabaseCatalog::GetDatabaseOid(name)` resolves a
database name through the catalog tuples, returning `INVALID_OID = 0` when no
tuple carries the name. -/
def DatabaseCatalog.GetDatabaseOid (tuples : List DatabaseTuple) (name : String) : Nat :=
  match tuples.find? (fun t => t.name == name) with
  | some t => t.oid
  | none => 0

/-- Modelled from the spec: `DatabaseCatalog::DeleteDatabase(oid)` deletes the
tuple with the given oid and reports whether one was found. -/
def DatabaseCatalog.DeleteDatabase (tuples : List DatabaseTuple) (oid : Nat) :
    Bool × List DatabaseTuple :=
  (tuples.any (fun t => t.oid == oid), tuples.filter (fun t => !(t.oid == oid)))

/-- Modelled from the spec: `TableCatalog::GetTableOid(name)` resolves a table
name through the catalog tuples (globally, not per database), returning
`INVALID_OID = 0` when absent. -/
def TableCatalog.GetTableOid (tuples : List TableTuple) (name : String) : Nat :=
  match tuples.find? (fun t => t.name == name) with
  | some t => t.oid
  | none => 0

/-- Modelled from the spec: `TableCatalog::GetTableOids(database_oid)` lists
the oids of the tables the catalog records for a database. -/
def TableCatalog.GetTableOids (tuples : List TableTuple) (database_oid : Nat) : List Nat :=
  (tuples.filter (fun t => t.database_oid == database_oid)).map (fun t => t.oid)

/-- Modelled from the spec: `TableCatalog::DeleteTable(oid)` removes the
tuple(s) with the given oid. -/
def TableCatalog.DeleteTable (tuples : List TableTuple) (oid : Nat) : List TableTuple :=
  tuples.filter (fun t => !(t.oid == oid))

/-- Modelled from the spec: `ColumnCatalog::DeleteColumn(table_oid, name)`
removes the tuple(s) keyed by the table oid and column name. -/
def ColumnCatalog.DeleteColumn (tuples : List ColumnTuple) (table_oid : Nat)
    (column_name : String) : List ColumnTuple :=
  tuples.filter (fun t => !(t.table_oid == table_oid && t.column_name == column_name))

/-- Modelled from the spec: `IndexCatalog::GetTableidByOid(index_oid)` resolves
the owning table of an index through the catalog tuple, returning
`INVALID_OID = 0` when absent. -/
def IndexCatalog.GetTableidByOid (tuples : List IndexTuple) (index_oid : Nat) : Nat :=
  match tuples.find? (fun t => t.oid == index_oid) with
  | some t => t.table_oid
  | none => 0

/-- Modelled from the spec: `storage::Database::GetTableWithName`. -/
def Database.GetTableWithName (db : Database) (table_name : String) : Option DataTable :=
  db.tables.find? (fun t => t.name == table_name)

/-- Modelled from the spec: `storage::Database::GetTableWithOid`. -/
def Database.GetTableWithOid (db : Database) (table_oid : Nat) : Option DataTable :=
  db.tables.find? (fun t => t.oid == table_oid)

/-- Modelled from the spec: `storage::Database::DropTableWithOid` removes (and
destroys) the owned table with the given oid. -/
def Database.DropTableWithOid (db : Database) (table_oid : Nat) : Database :=
  { db with tables := removeFirst (fun t => t.oid == table_oid) db.tables }

/-- Modelled from the spec: `storage::DataTable::DropIndexes` detaches every
index of the table. -/
def DataTable.DropIndexes (t : DataTable) : DataTable :=
  { t with indexes := [] }

/-- Modelled from the spec: `storage::DataTable::AddIndex` attaches one more
index to the table. -/
def DataTable.AddIndex (t : DataTable) (meta : IndexMetadata) : DataTable :=
  { t with indexes := t.indexes ++ [meta] }

/-- `Catalog::GetDatabaseWithOid`: linear scan of the live database list. -/
def Catalog.GetDatabaseWithOid (s : Catalog) (db_oid : Nat) : Option Database :=
  s.databases.find? (fun d => d.oid == db_oid)

/-- `Catalog::GetDatabaseWithName`: resolves the name through the database
catalog, then scans the live list for the resolved oid. -/
def Catalog.GetDatabaseWithName (s : Catalog) (database_name : String) : Option Database :=
  Catalog.GetDatabaseWithOid s (DatabaseCatalog.GetDatabaseOid s.pgDatabase database_name)

/-- `Catalog::GetTableWithName`: database by name, then table by name. -/
def Catalog.GetTableWithName (s : Catalog) (database_name table_name : String) :
    Option DataTable :=
  match Catalog.GetDatabaseWithName s database_name with
  | some db => db.GetTableWithName table_name
  | none => none

/-- `Catalog::GetTableWithOid`: database by oid, then table by oid. -/
def Catalog.GetTableWithOid (s : Catalog) (database_oid table_oid : Nat) : Option DataTable :=
  match Catalog.GetDatabaseWithOid s database_oid with
  | some db => db.GetTableWithOid table_oid
  | none => none

/-- `Catalog::CreateDatabase`: fails when the name already resolves through
the database catalog; otherwise appends a fresh live database and inserts its
catalog tuple. -/
def Catalog.CreateDatabase (s : Catalog) (database_name : String) : ResultType × Catalog :=
  if DatabaseCatalog.GetDatabaseOid s.pgDatabase database_name ≠ 0 then
    (ResultType.FAILURE, s)
  else
    let database_oid := s.database_oid_counter
    (ResultType.SUCCESS,
      { s with
        databases := s.databases ++ [{ oid := database_oid, name := database_name, tables := [] }]
        pgDatabase := s.pgDatabase ++ [{ oid := database_oid, name := database_name }]
        database_oid_counter := s.database_oid_counter + 1 })

/-- The `DATABASE` tag of `type::CatalogType`. Modelled from the spec: the
enumeration lives in a header not among the sources; it is a fixed high tag
bit ORed onto oids, modelled as bit 24. -/
def CatalogTypeDATABASE : Nat := 2 ^ 24

/-- `Catalog::AddDatabase`: appends the given live database and inserts a
catalog tuple whose oid is the live oid ORed with the `DATABASE` tag and whose
name is a default-constructed (empty) string — faithful to the source, which
never assigns `database_name` before the insert. -/
def Catalog.AddDatabase (s : Catalog) (database : Database) : Catalog :=
  { s with
    databases := s.databases ++ [database]
    pgDatabase := s.pgDatabase ++
      [{ oid := database.oid ||| CatalogTypeDATABASE, name := "" }] }

/-- The ordinal-collecting loop of `Catalog::CreatePrimaryIndex` and the
attribute-matching inner loop of `Catalog::CreateIndex`: scan the columns with
a running index, keeping the ordinals whose column satisfies `p`. -/
def scanOrdinals (p : Column → Bool) : List Column → Nat → List Nat
  | [], _ => []
  | c :: cs, i =>
    if p c then i :: scanOrdinals p cs (i + 1) else scanOrdinals p cs (i + 1)

/-- `Catalog::CreatePrimaryIndex`: resolves database and table by name,
collects the primary-flagged ordinals in column order, builds the key
sub-schema, and attaches an upper-cased `<table>_PKEY` unique BWTREE
PRIMARY_KEY index. It inserts no `pg_index` tuple. -/
def Catalog.CreatePrimaryIndex (s : Catalog) (database_name table_name : String) :
    ResultType × Catalog :=
  match Catalog.GetDatabaseWithName s database_name with
  | some database =>
    match database.GetTableWithName table_name with
    | none => (ResultType.FAILURE, s)
    | some table =>
      let key_attrs := scanOrdinals (fun c => c.is_primary) table.schema 0
      let key_schema := Schema.CopySchema table.schema key_attrs
      let index_name := table.name ++ "_PKEY"
      let index_metadata : IndexMetadata :=
        { name := StringUtil.Upper index_name
          oid := s.catalog_oid_counter
          table_oid := table.oid
          database_oid := database.oid
          index_type := IndexType.BWTREE
          index_constraint := IndexConstraintType.PRIMARY_KEY
          key_schema := key_schema
          key_attrs := key_attrs
          unique_keys := true }
      let attachTo : Database → Database := fun d =>
        { d with tables := updateFirst (fun t => t.name == table_name)
                             (fun t => t.AddIndex index_metadata) d.tables }
      (ResultType.SUCCESS,
        { s with
          catalog_oid_counter := s.catalog_oid_counter + 1
          databases := updateFirst (fun d => d.oid == database.oid) attachTo s.databases })
  | none => (ResultType.FAILURE, s)

/-- The per-column tuples `Catalog::CreateTable` inserts through
`ColumnCatalog::InsertColumn`, one per schema column, with the running
offset. -/
def columnTuplesOf (table_oid : Nat) : List Column → Nat → List ColumnTuple
  | [], _ => []
  | c :: cs, i =>
    { table_oid := table_oid, column_name := c.column_name, offset := i } ::
      columnTuplesOf table_oid cs (i + 1)

/-- `Catalog::CreateTable`: fails when the database is unknown or the live
database already holds a table of the name; otherwise registers the fresh
table, inserts its `pg_table` tuple and one `pg_attribute` tuple per column,
and — when some column is primary — runs `CreatePrimaryIndex` and returns its
result. On the no-primary-key path the source's `return result` names a
variable that is out of scope (declared inside the `if` sub-statement); the
intended `SUCCESS` announced by the comment above it is used here, and claim
C7 records the slip. -/
def Catalog.CreateTable (s : Catalog) (database_name table_name : String)
    (schema : List Column) : ResultType × Catalog :=
  match Catalog.GetDatabaseWithName s database_name with
  | none => (ResultType.FAILURE, s)
  | some database =>
    match database.GetTableWithName table_name with
    | some _ => (ResultType.FAILURE, s)
    | none =>
      let table_oid := s.table_oid_counter
      let table : DataTable :=
        { oid := table_oid, name := table_name, schema := schema, indexes := [] }
      let registerIn : Database → Database := fun d => { d with tables := d.tables ++ [table] }
      let table_tuple : TableTuple :=
        { oid := table_oid, name := table_name
          database_oid := database.oid, database_name := database_name }
      let s1 :=
        { s with
          table_oid_counter := s.table_oid_counter + 1
          databases := updateFirst (fun d => d.oid == database.oid) registerIn s.databases
          pgTable := s.pgTable ++ [table_tuple]
          pgColumn := s.pgColumn ++ columnTuplesOf table_oid schema 0 }
      let has_primary_key := schema.any (fun c => c.is_primary)
      if has_primary_key then Catalog.CreatePrimaryIndex s1 database_name table_name
      else (ResultType.SUCCESS, s1)

/-- The attribute-resolution loop of `Catalog::CreateIndex`: for each
requested name, in request order, every matching column ordinal is pushed. -/
def resolveIndexAttrs (schema : List Column) (index_attr : List String) : List Nat :=
  index_attr.flatMap (fun attr => scanOrdinals (fun c => c.column_name == attr) schema 0)

/-- `Catalog::CreateIndex`: resolves database and table oids through the
system catalogs and then the live objects; fails unless the resolved ordinal
count equals the requested name count; builds the key sub-schema; constructs
the index with constraint `DEFAULT` or `UNIQUE` depending on `unique_keys`
but — faithful to the source — with metadata uniqueness flag `true` in both
branches; attaches it to the table and inserts its `pg_index` tuple (which
does record the requested `unique_keys`). -/
def Catalog.CreateIndex (s : Catalog) (database_name table_name : String)
    (index_attr : List String) (index_name : String) (unique_keys : Bool)
    (index_type : IndexType) : ResultType × Catalog :=
  let database_oid := DatabaseCatalog.GetDatabaseOid s.pgDatabase database_name
  if database_oid = 0 then (ResultType.FAILURE, s)
  else
    let table_oid := TableCatalog.GetTableOid s.pgTable table_name
    if table_oid = 0 then (ResultType.FAILURE, s)
    else
      match Catalog.GetDatabaseWithOid s database_oid with
      | none => (ResultType.FAILURE, s)
      | some database =>
        match database.GetTableWithOid table_oid with
        | none => (ResultType.FAILURE, s)
        | some table =>
          let key_attrs := resolveIndexAttrs table.schema index_attr
          if key_attrs.length ≠ index_attr.length then (ResultType.FAILURE, s)
          else
            let key_schema := Schema.CopySchema table.schema key_attrs
            let index_oid := s.index_oid_counter
            let index_metadata : IndexMetadata :=
              if unique_keys = false then
                { name := index_name, oid := index_oid, table_oid := table.oid
                  database_oid := database.oid, index_type := index_type
                  index_constraint := IndexConstraintType.DEFAULT
                  key_schema := key_schema, key_attrs := key_attrs, unique_keys := true }
              else
                { name := index_name, oid := index_oid, table_oid := table.oid
                  database_oid := database.oid, index_type := index_type
                  index_constraint := IndexConstraintType.UNIQUE
                  key_schema := key_schema, key_attrs := key_attrs, unique_keys := true }
            let attachTo : Database → Database := fun d =>
              { d with tables := updateFirst (fun t => t.oid == table_oid)
                                   (fun t => t.AddIndex index_metadata) d.tables }
            let index_tuple : IndexTuple :=
              { oid := index_oid, name := index_name, table_oid := table_oid
                database_oid := database_oid, unique_keys := unique_keys }
            (ResultType.SUCCESS,
              { s with
                index_oid_counter := s.index_oid_counter + 1
                databases := updateFirst (fun d => d.oid == database_oid) attachTo s.databases
                pgIndex := s.pgIndex ++ [index_tuple] })

/-- `Catalog::DropIndex`: faithful to the source, whose presence check is
inverted (`if (database != nullptr) return FAILURE` under the log line
"Cannot find database"): when the live database resolves it fails at once,
and when it does not, after resolving the owning table oid through `pg_index`
it dereferences the null database pointer (`none`). -/
def Catalog.DropIndex (s : Catalog) (database_oid index_oid : Nat) :
    Option (ResultType × Catalog) :=
  match Catalog.GetDatabaseWithOid s database_oid with
  | some _ => some (ResultType.FAILURE, s)
  | none =>
    let table_oid := IndexCatalog.GetTableidByOid s.pgIndex index_oid
    if table_oid = 0 then some (ResultType.FAILURE, s)
    else none

/-- `Catalog::DropDatabaseWithName`: resolves the name through the database
catalog and deletes only the catalog tuple; the live object graph is not
touched. -/
def Catalog.DropDatabaseWithName (s : Catalog) (database_name : String) :
    ResultType × Catalog :=
  let database_oid := DatabaseCatalog.GetDatabaseOid s.pgDatabase database_name
  if database_oid = 0 then (ResultType.FAILURE, s)
  else
    let deleted := DatabaseCatalog.DeleteDatabase s.pgDatabase database_oid
    if !deleted.1 then (ResultType.FAILURE, { s with pgDatabase := deleted.2 })
    else (ResultType.SUCCESS, { s with pgDatabase := deleted.2 })

/-- `Catalog::DropTableWithOid`: resolves the database by oid (failing when
absent) and the table by oid — but the source re-checks the *database*
pointer where it meant the table, so a missing table is dereferenced
(`none`). On the main path it drops the table's indexes, removes the table
from its database, deletes the `pg_table` tuple and one `pg_attribute` tuple
per schema column. No `pg_index` tuple is deleted. -/
def Catalog.DropTableWithOid (s : Catalog) (database_oid table_oid : Nat) :
    Option (ResultType × Catalog) :=
  match Catalog.GetDatabaseWithOid s database_oid with
  | none => some (ResultType.FAILURE, s)
  | some database =>
    match database.GetTableWithOid table_oid with
    | none => none
    | some table =>
      let dropIdx : Database → Database := fun d =>
        { d with tables := updateFirst (fun t => t.oid == table_oid)
                             DataTable.DropIndexes d.tables }
      let s1 := { s with databases :=
                    updateFirst (fun d => d.oid == database_oid) dropIdx s.databases }
      let eraseT : Database → Database := fun d => d.DropTableWithOid table_oid
      let s2 := { s1 with databases :=
                    updateFirst (fun d => d.oid == database_oid) eraseT s1.databases }
      let s3 := { s2 with pgTable := TableCatalog.DeleteTable s2.pgTable table_oid }
      let delCols : List ColumnTuple → List ColumnTuple := fun pc =>
        table.schema.foldl (fun acc c => ColumnCatalog.DeleteColumn acc table_oid c.column_name) pc
      let s4 := { s3 with pgColumn := delCols s3.pgColumn }
      some (ResultType.SUCCESS, s4)

/-- `Catalog::DropTable`: like `DropTableWithOid` but resolving both names;
the source's second null check again tests the database instead of the table,
so a missing table is dereferenced (`none`). -/
def Catalog.DropTable (s : Catalog) (database_name table_name : String) :
    Option (ResultType × Catalog) :=
  match Catalog.GetDatabaseWithName s database_name with
  | none => some (ResultType.FAILURE, s)
  | some database =>
    match database.GetTableWithName table_name with
    | none => none
    | some table =>
      let table_oid := table.oid
      let dropIdx : Database → Database := fun d =>
        { d with tables := updateFirst (fun t => t.name == table_name)
                             DataTable.DropIndexes d.tables }
      let s1 := { s with databases :=
                    updateFirst (fun d => d.oid == database.oid) dropIdx s.databases }
      let eraseT : Database → Database := fun d => d.DropTableWithOid table_oid
      let s2 := { s1 with databases :=
                    updateFirst (fun d => d.oid == database.oid) eraseT s1.databases }
      let s3 := { s2 with pgTable := TableCatalog.DeleteTable s2.pgTable table_oid }
      let delCols : List ColumnTuple → List ColumnTuple := fun pc =>
        table.schema.foldl (fun acc c => ColumnCatalog.DeleteColumn acc table_oid c.column_name) pc
      let s4 := { s3 with pgColumn := delCols s3.pgColumn }
      some (ResultType.SUCCESS, s4)

/-- `Catalog::DropDatabaseWithOid`: drops every table the table catalog
records for the database (each result ignored, but a null dereference inside
`DropTableWithOid` propagates), deletes the database-catalog tuple (failing —
after the table drops — when it is absent), then erases the first live
database with the oid. The erase loop is written with slips
(`it->GetOid()`, `erase(database)`); its evident first-match erase is
modelled. -/
def Catalog.DropDatabaseWithOid (s : Catalog) (database_oid : Nat) :
    Option (ResultType × Catalog) :=
  let table_oids := TableCatalog.GetTableOids s.pgTable database_oid
  (table_oids.foldlM
      (fun acc table_oid => (Catalog.DropTableWithOid acc database_oid table_oid).map Prod.snd)
      s).bind
    (fun s1 =>
      let deleted := DatabaseCatalog.DeleteDatabase s1.pgDatabase database_oid
      if !deleted.1 then some (ResultType.FAILURE, { s1 with pgDatabase := deleted.2 })
      else
        let s2 := { s1 with pgDatabase := deleted.2 }
        if s2.databases.any (fun d => d.oid == database_oid) then
          some (ResultType.SUCCESS,
            { s2 with databases := removeFirst (fun d => d.oid == database_oid) s2.databases })
        else some (ResultType.FAILURE, s2))

/-- One catalog DDL operation, ranging over exactly the operations of claim
C1 (`DropDatabaseWithName` and `AddDatabase` are not among them). -/
inductive DDLOp where
  | createDatabase (database_name : String)
  | createTable (database_name table_name : String) (schema : List Column)
  | createPrimaryIndex (database_name table_name : String)
  | createIndex (database_name table_name : String) (index_attr : List String)
      (index_name : String) (unique_keys : Bool) (index_type : IndexType)
  | dropTable (database_name table_name : String)
  | dropTableWithOid (database_oid table_oid : Nat)
  | dropIndex (database_oid index_oid : Nat)
  | dropDatabaseWithOid (database_oid : Nat)
deriving DecidableEq, Repr

/-- Run one DDL operation (`none` = the operation dereferences null). -/
def applyOp (s : Catalog) : DDLOp → Option (ResultType × Catalog)
  | DDLOp.createDatabase n => some (Catalog.CreateDatabase s n)
  | DDLOp.createTable dn tn sch => some (Catalog.CreateTable s dn tn sch)
  | DDLOp.createPrimaryIndex dn tn => some (Catalog.CreatePrimaryIndex s dn tn)
  | DDLOp.createIndex dn tn attrs idxn u ty => some (Catalog.CreateIndex s dn tn attrs idxn u ty)
  | DDLOp.dropTable dn tn => Catalog.DropTable s dn tn
  | DDLOp.dropTableWithOid dboid toid => Catalog.DropTableWithOid s dboid toid
  | DDLOp.dropIndex dboid ioid => Catalog.DropIndex s dboid ioid
  | DDLOp.dropDatabaseWithOid dboid => Catalog.DropDatabaseWithOid s dboid

/-- Run a sequence of DDL operations, defined only when every single one runs
to completion and reports `SUCCESS`. -/
def execSucc : Catalog → List DDLOp → Option Catalog
  | s, [] => some s
  | s, op :: ops =>
    match applyOp s op with
    | some (ResultType.SUCCESS, s') => execSucc s' ops
    | _ => none

/-- All live tables of the catalog, across databases. -/
def Catalog.liveTables (s : Catalog) : List DataTable :=
  (s.databases.map (fun d => d.tables)).flatten

/-- All live indexes of the catalog, across databases and tables. -/
def Catalog.liveIndexes (s : Catalog) : List IndexMetadata :=
  ((Catalog.liveTables s).map (fun t => t.indexes)).flatten

/-- The (database oid, table oid) ownership pairs of the live object graph. -/
def Catalog.liveTablePairs (s : Catalog) : List (Nat × Nat) :=
  (s.databases.map (fun d => d.tables.map (fun t => (d.oid, t.oid)))).flatten

/-- The (table oid, column name) keys of the live object graph — live columns
carry no oid of their own; `pg_attribute` keys them this way. -/
def Catalog.liveColumnKeys (s : Catalog) : List (Nat × String) :=
  ((Catalog.liveTables s).map (fun t => t.schema.map (fun c => (t.oid, c.column_name)))).flatten

/-- Dual bookkeeping for databases, tables and columns: the live objects of
each of these kinds and the rows of the corresponding system-catalog table
name the same oids (for columns, the same (table oid, name) keys). -/
def ConsistentDbTableColumn (s : Catalog) : Prop :=
  (∀ o : Nat, o ∈ s.databases.map Database.oid ↔ o ∈ s.pgDatabase.map DatabaseTuple.oid) ∧
  (∀ o : Nat, o ∈ (Catalog.liveTables s).map DataTable.oid ↔ o ∈ s.pgTable.map TableTuple.oid) ∧
  (∀ k : Nat × String, k ∈ Catalog.liveColumnKeys s ↔
    ∃ ct ∈ s.pgColumn, ct.table_oid = k.1 ∧ ct.column_name = k.2)

/-- Dual bookkeeping for indexes: every live index has a `pg_index` row with
its oid and every `pg_index` row names a live index. -/
def ConsistentIndex (s : Catalog) : Prop :=
  ∀ o : Nat, o ∈ (Catalog.liveIndexes s).map IndexMetadata.oid ↔ o ∈ s.pgIndex.map IndexTuple.oid

/-- Decidable checker for `ConsistentIndex` on concrete states. -/
def consistentIndexCheck (s : Catalog) : Bool :=
  ((Catalog.liveIndexes s).map IndexMetadata.oid).all (fun o => (s.pgIndex.map IndexTuple.oid).contains o) &&
    (s.pgIndex.map IndexTuple.oid).all (fun o => ((Catalog.liveIndexes s).map IndexMetadata.oid).contains o)

/-! ## Logical tiles and the materialization operator

The materialization plan node (`planner/materialization_node.cpp`) is among
the sources; the executor (`executor/materialization_executor.cpp`) is not,
so `Materialize` and `GetNextTile` below are modelled from the
specification's §4.4 contract, with the single-output-tile shape that the
in-repository `MaterializationTests` assert (the result logical tile's
columns are all backed by the one tile produced for the input tile). -/

/-- A stored value, as far as materialization moves them: the integer,
tiny-integer and string values the tests populate, plus the invalid value
used for out-of-range access. -/
inductive Value where
  | intV (n : Int)
  | tinyintV (n : Int)
  | strV (s : String)
  | invalid
deriving DecidableEq, Repr

/-- A physical base tile (`storage::Tile`): a column count and row-major
stored values. -/
structure Tile where
  numCols : Nat
  rows : List (List Value)
deriving DecidableEq, Repr

/-- `storage::Tile::GetValue(row, col)`. -/
def Tile.GetValue (t : Tile) (row_idx col_idx : Nat) : Value :=
  match (t.rows.get? row_idx).bind (fun r => r.get? col_idx) with
  | some v => v
  | none => Value.invalid

/-- A logical tile (`executor::LogicalTile`): the distinct base tiles, one
(base-tile position, base-column) entry per output column, and the visible
row positions. -/
structure LogicalTile where
  baseTiles : List Tile
  colMap : List (Nat × Nat)
  visibleRows : List Nat
deriving DecidableEq, Repr

/-- `LogicalTile::NumCols`. -/
def LogicalTile.NumCols (lt : LogicalTile) : Nat :=
  lt.colMap.length

/-- `LogicalTile::GetValue(column, row)`: indirect through the column map and
the visible-row set. -/
def LogicalTile.GetValue (lt : LogicalTile) (col_idx row_idx : Nat) : Value :=
  match lt.colMap.get? col_idx, lt.visibleRows.get? row_idx with
  | some (tile_idx, base_col), some base_row =>
    match lt.baseTiles.get? tile_idx with
    | some t => t.GetValue base_row base_col
    | none => Value.invalid
  | _, _ => Value.invalid

/-- Modelled from the spec: `executor::LogicalTileFactory::WrapBaseTiles`
wraps base tiles as a logical tile whose columns are the tiles' columns in
tile order, with every physical row visible. -/
def LogicalTileFactory.WrapBaseTiles (tiles : List Tile) : LogicalTile :=
  { baseTiles := tiles
    colMap := (tiles.enum.map (fun p => (List.range p.2.numCols).map (fun c => (p.1, c)))).flatten
    visibleRows :=
      match tiles.head? with
      | some t => List.range t.rows.length
      | none => [] }

/-- The materialization plan node (`planner::MaterializationNode`): the
old-column → new-column map (an injective association list) and the output
schema, of which only the column count matters to value movement. -/
structure MaterializationNode where
  old_to_new_cols : List (Nat × Nat)
  schema_cols : Nat
deriving DecidableEq, Repr

/-- Modelled from the spec (§4.4): materializing one input logical tile
produces one new physical tile holding, for every visible input row and every
output column, the value of the mapped old column at that row, deep-copied;
the result is the new tile wrapped as a logical tile, so every output column
is backed by the one produced tile. -/
def Materialize (node : MaterializationNode) (src : LogicalTile) : LogicalTile :=
  let oldOf : Nat → Option Nat := fun j =>
    (node.old_to_new_cols.find? (fun p => p.2 == j)).map Prod.fst
  let valueAt : Nat → Nat → Value := fun i j =>
    match oldOf j with
    | some old_col => LogicalTile.GetValue src old_col i
    | none => Value.invalid
  let dest : Tile :=
    { numCols := node.schema_cols
      rows := (List.range src.visibleRows.length).map
        (fun i => (List.range node.schema_cols).map (fun j => valueAt i j)) }
  LogicalTileFactory.WrapBaseTiles [dest]

/-- Modelled from the spec: the materialization executor's mutable state — its
plan node and the child operator, a pull stream modelled as the list of tiles
the child has yet to emit (empty = the child reports end-of-stream). -/
structure MaterializationExecutor where
  node : MaterializationNode
  childTiles : List LogicalTile
deriving DecidableEq, Repr

/-- Modelled from the spec (§4.4): `GetNextTile` pulls exactly one tile from
the child; end-of-stream propagates and the executor stays exhausted. -/
def MaterializationExecutor.GetNextTile (e : MaterializationExecutor) :
    Option LogicalTile × MaterializationExecutor :=
  match e.childTiles with
  | [] => (none, e)
  | src :: rest => (some (Materialize e.node src), { e with childTiles := rest })

/-- `GetNextTile` called `n` times, keeping only the last emission. -/
def MaterializationExecutor.callN (e : MaterializationExecutor) :
    Nat → Option LogicalTile × MaterializationExecutor
  | 0 => (none, e)
  | n + 1 =>
    let step := e.GetNextTile
    match n with
    | 0 => step
    | _ + 1 => step.2.callN n

/-! ## Concrete scenario states used by the theorems below -/

/-- First base tile of the materialization reorder-and-drop scenario: columns
`[c0, c1]`, row `i` holding `(10i, 10i+1)` (the test's `PopulateTiles`). -/
def tile0 : Tile :=
  { numCols := 2
    rows := (List.range 9).map (fun i => [Value.intV (10 * i), Value.intV (10 * i + 1)]) }

/-- Second base tile: columns `[c2, c3]`, row `i` holding the tiny-int
`10i+2` and the string `"10i+3"`. -/
def tile1 : Tile :=
  { numCols := 2
    rows := (List.range 9).map
      (fun i => [Value.tinyintV (10 * i + 2), Value.strV (toString (10 * i + 3))]) }

/-- The input logical tile over the two base tiles (logical columns 0,1 from
`tile0` and 2,3 from `tile1`, nine visible rows). -/
def srcTile : LogicalTile := LogicalTileFactory.WrapBaseTiles [tile0, tile1]

/-- The plan map `{3 → 0, 1 → 1, 0 → 2}` (column 2 dropped), three output
columns. -/
def matNode : MaterializationNode :=
  { old_to_new_cols := [(3, 0), (1, 1), (0, 2)], schema_cols := 3 }

/-- The materialization executor over a child that emits `srcTile` once. -/
def matExec : MaterializationExecutor := { node := matNode, childTiles := [srcTile] }

/-- The tile the first `GetNextTile` call emits. -/
def matResult : Option LogicalTile := (matExec.GetNextTile).1

/-- An executor whose child is already at end-of-stream. -/
def matExecEmpty : MaterializationExecutor := { node := matNode, childTiles := [] }

/-- A table whose two columns share the name `x` (nothing in the catalog
rules duplicate column names out). -/
def tableXX : DataTable :=
  { oid := 1, name := "t"
    schema := [{ column_name := "x", is_primary := false },
               { column_name := "x", is_primary := false }]
    indexes := [] }

/-- A table with the distinct columns `x`, `y`. -/
def tableXY : DataTable :=
  { oid := 1, name := "t"
    schema := [{ column_name := "x", is_primary := false },
               { column_name := "y", is_primary := false }]
    indexes := [] }

/-- A table with columns `[a:PRIMARY, b, c:PRIMARY]` (the spec's
primary-key-ordinal example). -/
def tableABC : DataTable :=
  { oid := 1, name := "t"
    schema := [{ column_name := "a", is_primary := true },
               { column_name := "b", is_primary := false },
               { column_name := "c", is_primary := true }]
    indexes := [] }

/-- A catalog holding one database `d` (oid 1) that owns the given table,
with both sides of the bookkeeping for database and table in place. -/
def oneTableState (table : DataTable) : Catalog :=
  { databases := [{ oid := 1, name := "d", tables := [table] }]
    pgDatabase := [{ oid := 1, name := "d" }]
    pgTable := [{ oid := 1, name := "t", database_oid := 1, database_name := "d" }]
    pgColumn := columnTuplesOf 1 table.schema 0
    pgIndex := []
    database_oid_counter := 2, table_oid_counter := 2
    index_oid_counter := 5, catalog_oid_counter := 5 }

/-- `oneTableState tableXY` extended with a `pg_index` row for an index
(oid 7) attached to the table — everything `DropIndex(1, 7)` must resolve. -/
def dropIndexState : Catalog :=
  let meta : IndexMetadata :=
    { name := "i", oid := 7, table_oid := 1, database_oid := 1
      index_type := IndexType.BWTREE, index_constraint := IndexConstraintType.DEFAULT
      key_schema := [{ column_name := "x", is_primary := false }], key_attrs := [0]
      unique_keys := true }
  let s := oneTableState (tableXY.AddIndex meta)
  { s with pgIndex := [{ oid := 7, name := "i", table_oid := 1, database_oid := 1
                         unique_keys := true }] }

/-- A catalog holding just the database `d` (oid 1), as `CreateDatabase`
leaves it. -/
def oneDbState : Catalog := (Catalog.CreateDatabase initState "d").2

/-- The C1 counterexample trace: both operations report `SUCCESS`, and the
second one attaches a primary-key index. -/
def c1ops : List DDLOp :=
  [DDLOp.createDatabase "db",
   DDLOp.createTable "db" "t" [{ column_name := "a", is_primary := true }]]

/-- The state the C1 counterexample trace reaches. -/
def c1final : Catalog := (execSucc initState c1ops).getD initState


/-- The `CreateTable` call of the C7 scenario: one non-primary column, on a
catalog holding just the database `d`. -/
def c7result : ResultType × Catalog :=
  Catalog.CreateTable oneDbState "d" "t" [{ column_name := "a", is_primary := false }]

/-- The `CreateIndex` call of the C4 counterexample: the table's columns are
`[x, x]` and the request is `["x", "bogus"]`. -/
def c4result : ResultType × Catalog :=
  Catalog.CreateIndex (oneTableState tableXX) "d" "t" ["x", "bogus"] "idx" false IndexType.BWTREE

/-- The `CreateIndex` call of the C5 counterexample: a resolvable request
with `unique_keys = false`. -/
def c5result : ResultType × Catalog :=
  Catalog.CreateIndex (oneTableState tableXY) "d" "t" ["x"] "idx2" false IndexType.BWTREE


/-- The bookkeeping-relevant part of a live table: its oid, name and schema
(attached indexes play no role in the database/table/column bookkeeping). -/
def tSkel (t : DataTable) : Nat × String × List Column :=
  (t.oid, t.name, t.schema)

/-- The bookkeeping-relevant part of a live database. -/
def dbSkel (d : Database) : Nat × List (Nat × String × List Column) :=
  (d.oid, d.tables.map tSkel)

/-- The inductive invariant maintained by every all-`SUCCESS` DDL step: the
live oids of each kind are distinct and below their counter, and live
databases, tables (with their owning database) and columns correspond
exactly to the rows of their system-catalog tables. -/
structure CatInv (s : Catalog) : Prop where
  dbNodup : (s.databases.map Database.oid).Nodup
  dbLt : ∀ d ∈ s.databases, d.oid < s.database_oid_counter
  dbCorr : ∀ o : Nat, o ∈ s.databases.map Database.oid ↔ o ∈ s.pgDatabase.map DatabaseTuple.oid
  tableNodup : ((Catalog.liveTables s).map DataTable.oid).Nodup
  tableLt : ∀ t ∈ Catalog.liveTables s, t.oid < s.table_oid_counter
  tableTupNodup : (s.pgTable.map TableTuple.oid).Nodup
  tablePairs : ∀ x y : Nat, ((x, y) ∈ Catalog.liveTablePairs s ↔
    ∃ tt ∈ s.pgTable, tt.oid = y ∧ tt.database_oid = x)
  colCorr : ∀ x : Nat, ∀ y : String, ((x, y) ∈ Catalog.liveColumnKeys s ↔
    ∃ ct ∈ s.pgColumn, ct.table_oid = x ∧ ct.column_name = y)

/-! ## General lemmas about the embedding's list operations -/

theorem updateFirst_find?_self {p : α → Bool} {f : α → α} {l : List α} {a : α}
    (h : l.find? p = some a) (hf : p (f a) = true) :
    (updateFirst p f l).find? p = some (f a) := by
  induction l with
  | nil => simp at h
  | cons b rest ih =>
    by_cases hb : p b
    · rw [List.find?_cons_of_pos _ hb] at h
      cases h
      simp [updateFirst, hb, List.find?_cons_of_pos _ hf]
    · rw [List.find?_cons_of_neg _ hb] at h
      simp [updateFirst, hb, List.find?_cons_of_neg _ hb, ih h]

theorem updateFirst_map_eq {p : α → Bool} {f : α → α} (g : α → β) {l : List α}
    (hg : ∀ a, g (f a) = g a) : (updateFirst p f l).map g = l.map g := by
  induction l with
  | nil => rfl
  | cons b rest ih =>
    by_cases hb : p b
    · simp [updateFirst, hb, hg]
    · simp [updateFirst, hb, ih]

theorem mem_updateFirst {p : α → Bool} {f : α → α} {l : List α} {b : α}
    (h : b ∈ updateFirst p f l) : b ∈ l ∨ ∃ a ∈ l, p a = true ∧ b = f a := by
  induction l with
  | nil => simp [updateFirst] at h
  | cons c rest ih =>
    by_cases hc : p c
    · simp only [updateFirst, hc, if_pos] at h
      rcases List.mem_cons.mp h with h | h
      · exact Or.inr ⟨c, List.mem_cons_self .., hc, h⟩
      · exact Or.inl (List.mem_cons_of_mem _ h)
    · simp only [updateFirst, hc, if_neg, Bool.false_eq_true, not_false_iff] at h
      rcases List.mem_cons.mp h with h | h
      · exact Or.inl (h ▸ List.mem_cons_self ..)
      · rcases ih h with h | ⟨a, ha, hpa, hb⟩
        · exact Or.inl (List.mem_cons_of_mem _ h)
        · exact Or.inr ⟨a, List.mem_cons_of_mem _ ha, hpa, hb⟩

theorem scanOrdinals_succ (p : Column → Bool) (cs : List Column) (i : Nat) :
    scanOrdinals p cs (i + 1) = (scanOrdinals p cs i).map Nat.succ := by
  induction cs generalizing i with
  | nil => rfl
  | cons c rest ih =>
    by_cases hc : p c
    · simp [scanOrdinals, hc, ih]
    · simp [scanOrdinals, hc, ih]

theorem mem_scanOrdinals_zero {p : Column → Bool} {cs : List Column} {i : Nat} :
    i ∈ scanOrdinals p cs 0 ↔ ∃ c, cs.get? i = some c ∧ p c = true := by
  induction cs generalizing i with
  | nil => simp [scanOrdinals]
  | cons c rest ih =>
    have hshift : scanOrdinals p rest 1 = (scanOrdinals p rest 0).map Nat.succ :=
      scanOrdinals_succ p rest 0
    by_cases hc : p c
    · simp only [scanOrdinals, hc, if_pos, hshift]
      cases i with
      | zero => simp [hc]
      | succ j => simp [ih, Nat.succ_eq_add_one]
    · simp only [scanOrdinals, hc, if_neg, Bool.false_eq_true, not_false_iff, hshift]
      cases i with
      | zero => simp [hc]
      | succ j => simp [ih, Nat.succ_eq_add_one]

theorem scanOrdinals_sorted (p : Column → Bool) (cs : List Column) :
    (scanOrdinals p cs 0).Pairwise (· < ·) := by
  induction cs with
  | nil => exact List.Pairwise.nil
  | cons c rest ih =>
    have hshift := scanOrdinals_succ p rest 0
    have hmap : ((scanOrdinals p rest 0).map Nat.succ).Pairwise (· < ·) :=
      List.Pairwise.map Nat.succ (fun _ _ h => Nat.succ_lt_succ h) ih
    by_cases hc : p c
    · simp only [scanOrdinals, hc, if_pos, hshift]
      exact List.Pairwise.cons (by simp [Nat.succ_pos]) hmap
    · simp only [scanOrdinals, hc, if_neg, Bool.false_eq_true, not_false_iff, hshift]
      exact hmap

theorem scanOrdinals_length (p : Column → Bool) (cs : List Column) (i : Nat) :
    (scanOrdinals p cs i).length = cs.countP p := by
  induction cs generalizing i with
  | nil => rfl
  | cons c rest ih =>
    by_cases hc : p c
    · simp [scanOrdinals, hc, ih, List.countP_cons]
    · simp [scanOrdinals, hc, ih, List.countP_cons]

theorem copySchema_scanOrdinals (cs : List Column) :
    Schema.CopySchema cs (scanOrdinals (fun c => c.is_primary) cs 0) =
      cs.filter (fun c => c.is_primary) := by
  suffices h : ∀ (p : Column → Bool) (cs : List Column),
      Schema.CopySchema cs (scanOrdinals p cs 0) = cs.filter p from h _ cs
  intro p cs
  induction cs with
  | nil => rfl
  | cons c rest ih =>
    have hshift := scanOrdinals_succ p rest 0
    have hmap : Schema.CopySchema (c :: rest) ((scanOrdinals p rest 0).map Nat.succ) =
        Schema.CopySchema rest (scanOrdinals p rest 0) := by
      unfold Schema.CopySchema
      rw [List.filterMap_map]
      rfl
    by_cases hc : p c
    · simp only [scanOrdinals, hc, if_pos, hshift, List.filter_cons_of_pos]
      show Schema.CopySchema (c :: rest) (0 :: (scanOrdinals p rest 0).map Nat.succ) =
        c :: rest.filter p
      unfold Schema.CopySchema
      simp only [List.filterMap_cons, List.get?_cons_zero]
      exact congrArg (c :: ·) (hmap.trans ih)
    · simp only [scanOrdinals, hc, hshift, if_neg, Bool.false_eq_true, not_false_iff]
      rw [List.filter_cons_of_neg (by simp [hc])]
      exact hmap.trans ih

theorem upper_append (a b : String) :
    StringUtil.Upper (a ++ b) = StringUtil.Upper a ++ StringUtil.Upper b := by
  unfold StringUtil.Upper
  apply String.ext
  simp [String.data_append]

/-! ## Materialization claims -/

/-- C2: on an input logical tile over two base tiles contributing columns
`[c0,c1]` and `[c2,c3]` with 9 rows, materialized under the plan map
`{3→0, 1→1, 0→2}` (column 2 dropped), `GetNextTile` returns a logical tile
with exactly 3 columns, all backed by the one newly produced physical tile,
whose column 0 holds source column 3's value, column 1 source column 1's
value and column 2 source column 0's value at every row `i < 9`. -/
theorem materialize_reorder_drop_scenario :
    matResult.map LogicalTile.NumCols = some 3 ∧
    matResult.map (fun r => r.baseTiles.length) = some 1 ∧
    matResult.map (fun r => r.colMap.all (fun p => p.1 == 0)) = some true ∧
    matResult.map (fun r => r.visibleRows.length) = some 9 ∧
    matResult.map (fun r => (List.range 9).all (fun i =>
      r.GetValue 0 i == srcTile.GetValue 3 i &&
      r.GetValue 1 i == srcTile.GetValue 1 i &&
      r.GetValue 2 i == srcTile.GetValue 0 i)) = some true := by
  refine ⟨rfl, rfl, rfl, rfl, ?_⟩
  rfl

/-- An executor whose child is exhausted keeps answering `none`. -/
theorem callN_of_empty (e : MaterializationExecutor) (h : e.childTiles = []) :
    ∀ k, (e.callN (k + 1)).1 = none ∧ (e.callN (k + 1)).2 = e := by
  intro k
  induction k generalizing e with
  | zero => simp [MaterializationExecutor.callN, MaterializationExecutor.GetNextTile, h]
  | succ m ih =>
    have hstep : e.GetNextTile = (none, e) := by
      simp [MaterializationExecutor.GetNextTile, h]
    show ((e.GetNextTile).2.callN (m + 1)).1 = none ∧ ((e.GetNextTile).2.callN (m + 1)).2 = e
    rw [hstep]
    exact ih e h

/-- C9: once the child reports end-of-stream `GetNextTile` returns no tile on
that call; after any call that returned no tile, every later call also
returns no tile; and no call consumes more than one tile of the child's
stream. -/
theorem getNextTile_exhaustion (e : MaterializationExecutor) (k : Nat) :
    (e.childTiles = [] → (e.GetNextTile).1 = none) ∧
    ((e.GetNextTile).1 = none → (((e.GetNextTile).2).callN (k + 1)).1 = none) ∧
    e.childTiles.length ≤ ((e.GetNextTile).2).childTiles.length + 1 := by
  match he : e.childTiles with
  | [] =>
    have hstep : e.GetNextTile = (none, e) := by
      simp [MaterializationExecutor.GetNextTile, he]
    refine ⟨fun _ => by rw [hstep], fun _ => ?_, ?_⟩
    · rw [hstep]
      exact (callN_of_empty e he k).1
    · rw [hstep, he]
      exact Nat.le_succ 0
  | src :: rest =>
    have hstep : e.GetNextTile = (some (Materialize e.node src), { e with childTiles := rest }) := by
      simp [MaterializationExecutor.GetNextTile, he]
    refine ⟨fun h => absurd h (by simp), fun h => ?_, ?_⟩
    · rw [hstep] at h
      exact absurd h (by simp)
    · rw [hstep]
      exact Nat.le_refl _

/-- Witness for C9 at a concrete executor: the child is at end-of-stream, the
call returns no tile, and two further calls still return no tile. -/
theorem getNextTile_exhaustion_witness :
    matExecEmpty.childTiles = [] ∧ (matExecEmpty.GetNextTile).1 = none ∧
    (((matExecEmpty.GetNextTile).2).callN 2).1 = none := by
  refine ⟨rfl, (getNextTile_exhaustion matExecEmpty 1).1 rfl, ?_⟩
  exact (getNextTile_exhaustion matExecEmpty 1).2.1 ((getNextTile_exhaustion matExecEmpty 1).1 rfl)

/-! ## AddDatabase (C10), DropIndex (C6), CreateTable return (C7) -/

/-- C10: `AddDatabase` appends the live database and inserts a catalog tuple
whose name is empty and whose oid is the live oid ORed with the `DATABASE`
tag; a lookup under the database's (nonempty) name then finds nothing, and
the tuple oid differs from the live oid whenever the tag bit was clear. -/
theorem addDatabase_tagged_empty_name (s : Catalog) (db : Database)
    (hname : db.name ≠ "")
    (hfresh : ∀ t ∈ s.pgDatabase, t.name ≠ db.name)
    (hoid : db.oid ≠ 0)
    (hlive : ∀ d ∈ s.databases, d.oid ≠ 0) :
    (Catalog.AddDatabase s db).databases = s.databases ++ [db] ∧
    (Catalog.AddDatabase s db).pgDatabase =
      s.pgDatabase ++ [{ oid := db.oid ||| CatalogTypeDATABASE, name := "" }] ∧
    Catalog.GetDatabaseWithName (Catalog.AddDatabase s db) db.name = none ∧
    (db.oid.testBit 24 = false → db.oid ||| CatalogTypeDATABASE ≠ db.oid) := by
  refine ⟨rfl, rfl, ?_, ?_⟩
  · have hfind : ((Catalog.AddDatabase s db).pgDatabase).find?
        (fun t => t.name == db.name) = none := by
      apply List.find?_eq_none.mpr
      intro t ht
      rcases List.mem_append.mp ht with ht | ht
      · simp [hfresh t ht]
      · rcases List.mem_singleton.mp ht with rfl
        simp [Ne.symm hname]
    have hzero : DatabaseCatalog.GetDatabaseOid (Catalog.AddDatabase s db).pgDatabase db.name
        = 0 := by
      unfold DatabaseCatalog.GetDatabaseOid
      rw [hfind]
    unfold Catalog.GetDatabaseWithName
    rw [hzero]
    unfold Catalog.GetDatabaseWithOid
    apply List.find?_eq_none.mpr
    intro d hd
    rcases List.mem_append.mp hd with hd | hd
    · simp [hlive d hd]
    · rcases List.mem_singleton.mp hd with rfl
      simp [hoid]
  · intro hbit heq
    have h24 : (db.oid ||| CatalogTypeDATABASE).testBit 24 = db.oid.testBit 24 :=
      congrArg (fun n => n.testBit 24) heq
    rw [Nat.testBit_or, hbit, CatalogTypeDATABASE, Nat.testBit_two_pow_self] at h24
    simp at h24

/-- Witness for C10 at a concrete database (`oid 3`, name `mydb`) added to
the empty catalog. -/
theorem addDatabase_tagged_empty_name_witness :
    ({ oid := 3, name := "mydb", tables := [] } : Database).name ≠ "" ∧
    (Catalog.AddDatabase initState { oid := 3, name := "mydb", tables := [] }).pgDatabase =
      [{ oid := 3 ||| CatalogTypeDATABASE, name := "" }] ∧
    Catalog.GetDatabaseWithName
      (Catalog.AddDatabase initState { oid := 3, name := "mydb", tables := [] }) "mydb" = none ∧
    (3 : Nat) ||| CatalogTypeDATABASE ≠ 3 := by
  have h := addDatabase_tagged_empty_name initState { oid := 3, name := "mydb", tables := [] }
    (by decide) (by intro t ht; exact absurd ht (by simp [initState]))
    (by decide) (by intro d hd; exact absurd hd (by simp [initState]))
  exact ⟨by decide, h.2.1, h.2.2.1, h.2.2.2 (by decide)⟩

/-- C6 (code bug): with the database (oid 1), the owning table and the
`pg_index` row for index 7 all resolvable, `DropIndex(1, 7)` returns
`FAILURE` and changes nothing, because the source's presence check is
inverted; with the database absent (and the index row still present) it
dereferences the null database pointer instead of returning `FAILURE`. -/
theorem dropIndex_inverted_presence_check :
    Catalog.DropIndex dropIndexState 1 7 = some (ResultType.FAILURE, dropIndexState) ∧
    Catalog.DropIndex { dropIndexState with databases := [] } 1 7 = none := by
  exact ⟨rfl, rfl⟩

/-- C7: on the no-primary-key path the modelled `CreateTable` (the source's
`return result` names an out-of-scope variable; the model returns the
`SUCCESS` its comment announces) registers the live table and inserts the
`pg_table` and `pg_attribute` rows. -/
theorem createTable_no_primary_key_path :
    c7result.1 = ResultType.SUCCESS ∧
    c7result.2.pgTable = [{ oid := 1, name := "t", database_oid := 1, database_name := "d" }] ∧
    c7result.2.pgColumn = [{ table_oid := 1, column_name := "a", offset := 0 }] ∧
    Catalog.GetTableWithName c7result.2 "d" "t" =
      some { oid := 1, name := "t"
             schema := [{ column_name := "a", is_primary := false }], indexes := [] } := by
  exact ⟨rfl, rfl, rfl, rfl⟩

/-! ## DropDatabaseWithName (C8) -/

/-- C8: when the name resolves through the database catalog (to the oid of a
live database, uniquely for that name), `DropDatabaseWithName` returns
`SUCCESS` having deleted only the database-catalog tuple: the live list and
all other catalog tables are untouched, a by-name lookup now finds nothing,
and the by-oid lookup still returns the live object. -/
theorem dropDatabaseWithName_tuple_only (s : Catalog) (database_name : String) (db : Database)
    (hres : DatabaseCatalog.GetDatabaseOid s.pgDatabase database_name ≠ 0)
    (huniq : ∀ t ∈ s.pgDatabase, t.name = database_name →
      t.oid = DatabaseCatalog.GetDatabaseOid s.pgDatabase database_name)
    (hlive : Catalog.GetDatabaseWithOid s
      (DatabaseCatalog.GetDatabaseOid s.pgDatabase database_name) = some db)
    (hno0 : ∀ d ∈ s.databases, d.oid ≠ 0) :
    (Catalog.DropDatabaseWithName s database_name).1 = ResultType.SUCCESS ∧
    (Catalog.DropDatabaseWithName s database_name).2.databases = s.databases ∧
    (Catalog.DropDatabaseWithName s database_name).2.pgTable = s.pgTable ∧
    (Catalog.DropDatabaseWithName s database_name).2.pgColumn = s.pgColumn ∧
    (Catalog.DropDatabaseWithName s database_name).2.pgIndex = s.pgIndex ∧
    Catalog.GetDatabaseWithName (Catalog.DropDatabaseWithName s database_name).2
      database_name = none ∧
    Catalog.GetDatabaseWithOid (Catalog.DropDatabaseWithName s database_name).2
      (DatabaseCatalog.GetDatabaseOid s.pgDatabase database_name) = some db := by
  set D := DatabaseCatalog.GetDatabaseOid s.pgDatabase database_name with hDdef
  have hfound : s.pgDatabase.any (fun t => t.oid == D) = true := by
    cases hfind : s.pgDatabase.find? (fun t => t.name == database_name) with
    | none =>
      exfalso
      apply hres
      rw [hDdef]
      unfold DatabaseCatalog.GetDatabaseOid
      rw [hfind]
    | some t =>
      have hmem := List.mem_of_find?_eq_some hfind
      have hval : D = t.oid := by
        rw [hDdef]
        unfold DatabaseCatalog.GetDatabaseOid
        rw [hfind]
      exact List.any_eq_true.mpr ⟨t, hmem, by simp [hval]⟩
  have hstep : Catalog.DropDatabaseWithName s database_name =
      (ResultType.SUCCESS,
        { s with pgDatabase := s.pgDatabase.filter (fun t => !(t.oid == D)) }) := by
    unfold Catalog.DropDatabaseWithName DatabaseCatalog.DeleteDatabase
    simp only [← hDdef]
    rw [if_neg hres]
    simp only [hfound, Bool.not_true, Bool.false_eq_true, if_false]
  rw [hstep]
  refine ⟨rfl, rfl, rfl, rfl, rfl, ?_, ?_⟩
  · have hzero : DatabaseCatalog.GetDatabaseOid
        (s.pgDatabase.filter (fun t => !(t.oid == D))) database_name = 0 := by
      unfold DatabaseCatalog.GetDatabaseOid
      have : (s.pgDatabase.filter (fun t => !(t.oid == D))).find?
          (fun t => t.name == database_name) = none := by
        apply List.find?_eq_none.mpr
        intro t ht
        obtain ⟨hmem, hkeep⟩ := List.mem_filter.mp ht
        intro hname
        have : t.oid = D := huniq t hmem (by simpa using hname)
        simp [this] at hkeep
      rw [this]
    unfold Catalog.GetDatabaseWithName
    show Catalog.GetDatabaseWithOid _ (DatabaseCatalog.GetDatabaseOid
      (s.pgDatabase.filter (fun t => !(t.oid == D))) database_name) = none
    rw [hzero]
    unfold Catalog.GetDatabaseWithOid
    apply List.find?_eq_none.mpr
    intro d hd
    simp [hno0 d hd]
  · exact hlive

/-- Witness for C8 on the one-database catalog. -/
theorem dropDatabaseWithName_tuple_only_witness :
    DatabaseCatalog.GetDatabaseOid oneDbState.pgDatabase "d" ≠ 0 ∧
    ((Catalog.DropDatabaseWithName oneDbState "d").1 = ResultType.SUCCESS ∧
     (Catalog.DropDatabaseWithName oneDbState "d").2.databases = oneDbState.databases ∧
     (Catalog.DropDatabaseWithName oneDbState "d").2.pgTable = oneDbState.pgTable ∧
     (Catalog.DropDatabaseWithName oneDbState "d").2.pgColumn = oneDbState.pgColumn ∧
     (Catalog.DropDatabaseWithName oneDbState "d").2.pgIndex = oneDbState.pgIndex ∧
     Catalog.GetDatabaseWithName (Catalog.DropDatabaseWithName oneDbState "d").2 "d" = none ∧
     Catalog.GetDatabaseWithOid (Catalog.DropDatabaseWithName oneDbState "d").2
       (DatabaseCatalog.GetDatabaseOid oneDbState.pgDatabase "d") =
         some { oid := 1, name := "d", tables := [] }) :=
  ⟨by decide,
    dropDatabaseWithName_tuple_only oneDbState "d" { oid := 1, name := "d", tables := [] }
      (by decide) (by decide) (by decide) (by decide)⟩

/-! ## CreateIndex (C4, C5) -/

/-- C5 counterexample: a successful `CreateIndex` with `unique_keys = false`
attaches an index whose metadata uniqueness flag is `true` (not the
requested `false`); the `pg_index` row does record `false`. -/
theorem createIndex_unique_flag_cex :
    c5result.1 = ResultType.SUCCESS ∧
    (Catalog.GetTableWithOid c5result.2 1 1).map
      (fun t => t.indexes.map (fun m => m.unique_keys)) = some [true] ∧
    c5result.2.pgIndex.map (fun t => t.unique_keys) = [false] := by
  exact ⟨rfl, rfl, rfl⟩

/-- C5 amended: every successful `CreateIndex` attaches an index whose
constraint kind is `DEFAULT` for `unique_keys = false` and `UNIQUE` for
`true` (as claimed), but whose metadata uniqueness flag is `true` regardless
of the argument; the inserted `pg_index` row records the requested value. -/
theorem createIndex_constraint_and_unique_flag (s : Catalog) (dn tn : String)
    (attrs : List String) (idxn : String) (u : Bool) (ty : IndexType)
    (db : Database) (table : DataTable)
    (hdoid : DatabaseCatalog.GetDatabaseOid s.pgDatabase dn ≠ 0)
    (htoid : TableCatalog.GetTableOid s.pgTable tn ≠ 0)
    (hdb : Catalog.GetDatabaseWithOid s
      (DatabaseCatalog.GetDatabaseOid s.pgDatabase dn) = some db)
    (htab : db.GetTableWithOid (TableCatalog.GetTableOid s.pgTable tn) = some table)
    (hcount : (resolveIndexAttrs table.schema attrs).length = attrs.length) :
    (Catalog.CreateIndex s dn tn attrs idxn u ty).1 = ResultType.SUCCESS ∧
    ∃ meta : IndexMetadata,
      Catalog.GetTableWithOid (Catalog.CreateIndex s dn tn attrs idxn u ty).2
        (DatabaseCatalog.GetDatabaseOid s.pgDatabase dn)
        (TableCatalog.GetTableOid s.pgTable tn) = some (table.AddIndex meta) ∧
      meta.unique_keys = true ∧
      meta.index_constraint =
        (if u then IndexConstraintType.UNIQUE else IndexConstraintType.DEFAULT) ∧
      meta.key_attrs = resolveIndexAttrs table.schema attrs ∧
      meta.name = idxn ∧ meta.index_type = ty ∧
      (Catalog.CreateIndex s dn tn attrs idxn u ty).2.pgIndex =
        s.pgIndex ++ [{ oid := s.index_oid_counter, name := idxn
                        table_oid := TableCatalog.GetTableOid s.pgTable tn
                        database_oid := DatabaseCatalog.GetDatabaseOid s.pgDatabase dn
                        unique_keys := u }] := by
  have hne : ¬ ((resolveIndexAttrs table.schema attrs).length ≠ attrs.length) :=
    fun h => h hcount
  unfold Catalog.CreateIndex
  simp only [if_neg hdoid, if_neg htoid, hdb, htab, if_neg hne]
  refine ⟨trivial, ?_⟩
  set Doid := DatabaseCatalog.GetDatabaseOid s.pgDatabase dn with hDoid
  set Toid := TableCatalog.GetTableOid s.pgTable tn with hToid
  set meta : IndexMetadata :=
    (if u = false then
      { name := idxn, oid := s.index_oid_counter, table_oid := table.oid
        database_oid := db.oid, index_type := ty
        index_constraint := IndexConstraintType.DEFAULT
        key_schema := Schema.CopySchema table.schema (resolveIndexAttrs table.schema attrs)
        key_attrs := resolveIndexAttrs table.schema attrs, unique_keys := true }
    else
      { name := idxn, oid := s.index_oid_counter, table_oid := table.oid
        database_oid := db.oid, index_type := ty
        index_constraint := IndexConstraintType.UNIQUE
        key_schema := Schema.CopySchema table.schema (resolveIndexAttrs table.schema attrs)
        key_attrs := resolveIndexAttrs table.schema attrs, unique_keys := true }) with hmeta
  refine ⟨meta, ?_, ?_, ?_, ?_, ?_, ?_, trivial⟩
  · unfold Catalog.GetTableWithOid Catalog.GetDatabaseWithOid
    have hdb' : s.databases.find? (fun d => d.oid == Doid) = some db := hdb
    have hpf : ((fun (d : Database) => d.oid == Doid)
        { db with tables := updateFirst (fun t => t.oid == Toid)
                              (fun t => t.AddIndex meta) db.tables }) = true := by
      show (db.oid == Doid) = true
      simpa using List.find?_some hdb'
    have hfind := @updateFirst_find?_self Database (fun d => d.oid == Doid)
      (fun d => { d with tables := updateFirst (fun t => t.oid == Toid)
                           (fun t => t.AddIndex meta) d.tables })
      s.databases db hdb' hpf
    rw [hfind]
    show Database.GetTableWithOid _ Toid = _
    unfold Database.GetTableWithOid
    have htab' : db.tables.find? (fun t => t.oid == Toid) = some table := htab
    have hpt : ((fun (t : DataTable) => t.oid == Toid) (table.AddIndex meta)) = true := by
      show (table.oid == Toid) = true
      simpa using List.find?_some htab'
    exact @updateFirst_find?_self DataTable (fun t => t.oid == Toid)
      (fun t => t.AddIndex meta) db.tables table htab' hpt
  · rw [hmeta]; cases u <;> rfl
  · rw [hmeta]; cases u <;> rfl
  · rw [hmeta]; cases u <;> rfl
  · rw [hmeta]; cases u <;> rfl
  · rw [hmeta]; cases u <;> rfl

/-- Witness for the amended C5 on the one-table catalog: a `unique_keys =
false` request. -/
theorem createIndex_constraint_and_unique_flag_witness :
    (Catalog.CreateIndex (oneTableState tableXY) "d" "t" ["x"] "idx2" false
        IndexType.BWTREE).1 = ResultType.SUCCESS ∧
    ∃ meta : IndexMetadata,
      Catalog.GetTableWithOid
        (Catalog.CreateIndex (oneTableState tableXY) "d" "t" ["x"] "idx2" false
          IndexType.BWTREE).2 1 1 = some (tableXY.AddIndex meta) ∧
      meta.unique_keys = true ∧
      meta.index_constraint =
        (if false then IndexConstraintType.UNIQUE else IndexConstraintType.DEFAULT) ∧
      meta.key_attrs = resolveIndexAttrs tableXY.schema ["x"] ∧
      meta.name = "idx2" ∧ meta.index_type = IndexType.BWTREE ∧
      (Catalog.CreateIndex (oneTableState tableXY) "d" "t" ["x"] "idx2" false
          IndexType.BWTREE).2.pgIndex =
        (oneTableState tableXY).pgIndex ++
          [{ oid := 5, name := "idx2", table_oid := 1, database_oid := 1
             unique_keys := false }] :=
  createIndex_constraint_and_unique_flag (oneTableState tableXY) "d" "t" ["x"] "idx2" false
    IndexType.BWTREE { oid := 1, name := "d", tables := [tableXY] } tableXY
    (by decide) (by decide) (by decide) (by decide) (by decide)

/-- C4 counterexample: on a table whose columns are `[x, x]`, the request
`["x", "bogus"]` succeeds and attaches an index even though `"bogus"` names
no column — the doubly-matching `"x"` masks the miss in the count check. -/
theorem createIndex_all_or_nothing_cex :
    ("bogus" ∈ tableXX.schema.map Column.column_name → False) ∧
    c4result.1 = ResultType.SUCCESS ∧
    (Catalog.GetTableWithOid c4result.2 1 1).map (fun t => t.indexes.length) = some 1 := by
  exact ⟨by decide, rfl, rfl⟩

theorem sum_le_length_of_le_one : ∀ {l : List Nat}, (∀ x ∈ l, x ≤ 1) → l.sum ≤ l.length := by
  intro l
  induction l with
  | nil => intro _; exact Nat.le_refl 0
  | cons y ys ih =>
    intro h
    have hy : y ≤ 1 := h y (List.mem_cons_self ..)
    have hys := ih (fun x hx => h x (List.mem_cons_of_mem _ hx))
    simpa [List.sum_cons, Nat.succ_eq_add_one, Nat.add_comm] using Nat.add_le_add hy hys

theorem sum_lt_length_of_le_one : ∀ {l : List Nat}, (∀ x ∈ l, x ≤ 1) →
    (∃ x ∈ l, x = 0) → l.sum < l.length := by
  intro l
  induction l with
  | nil => intro _ h; exact absurd h (by simp)
  | cons y ys ih =>
    intro h1 ⟨x, hx, hx0⟩
    rcases List.mem_cons.mp hx with rfl | hx
    · rw [hx0]
      have := sum_le_length_of_le_one (fun z hz => h1 z (List.mem_cons_of_mem _ hz))
      simpa [List.sum_cons] using Nat.lt_succ_of_le this
    · have hlt := ih (fun z hz => h1 z (List.mem_cons_of_mem _ hz)) ⟨x, hx, hx0⟩
      have hy : y ≤ 1 := h1 y (List.mem_cons_self ..)
      calc (y :: ys).sum = y + ys.sum := List.sum_cons
        _ < y + ys.length := Nat.add_lt_add_left hlt y
        _ ≤ 1 + ys.length := Nat.add_le_add_right hy _
        _ = (y :: ys).length := by simp [Nat.add_comm]

/-- C4 amended: when the table's column names are pairwise distinct (so no
name can match twice), a request naming any column absent from the table
fails as a whole and changes nothing; with duplicated column names the
count-based check can be fooled (see the counterexample). -/
theorem createIndex_missing_attr_fails (s : Catalog) (dn tn : String)
    (attrs : List String) (idxn : String) (u : Bool) (ty : IndexType)
    (db : Database) (table : DataTable)
    (hdoid : DatabaseCatalog.GetDatabaseOid s.pgDatabase dn ≠ 0)
    (htoid : TableCatalog.GetTableOid s.pgTable tn ≠ 0)
    (hdb : Catalog.GetDatabaseWithOid s
      (DatabaseCatalog.GetDatabaseOid s.pgDatabase dn) = some db)
    (htab : db.GetTableWithOid (TableCatalog.GetTableOid s.pgTable tn) = some table)
    (hnodup : (table.schema.map Column.column_name).Nodup)
    (a : String) (ha : a ∈ attrs) (hmiss : a ∉ table.schema.map Column.column_name) :
    Catalog.CreateIndex s dn tn attrs idxn u ty = (ResultType.FAILURE, s) := by
  have hcounts : ∀ b : String,
      (scanOrdinals (fun c => c.column_name == b) table.schema 0).length =
        List.count b (table.schema.map Column.column_name) := by
    intro b
    rw [scanOrdinals_length, List.count, List.countP_map]
    rfl
  have hlen : (resolveIndexAttrs table.schema attrs).length < attrs.length := by
    unfold resolveIndexAttrs
    rw [List.length_flatMap]
    simp only [Function.comp_def]
    have hlenmap : (attrs.map
        (fun b => (scanOrdinals (fun c => c.column_name == b) table.schema 0).length)).length
          = attrs.length := List.length_map ..
    rw [← hlenmap]
    apply sum_lt_length_of_le_one
    · intro x hxm
      obtain ⟨b, _, rfl⟩ := List.mem_map.mp hxm
      rw [hcounts b]
      exact List.nodup_iff_count_le_one.mp hnodup b
    · refine ⟨(scanOrdinals (fun c => c.column_name == a) table.schema 0).length,
        List.mem_map_of_mem _ ha, ?_⟩
      rw [hcounts a]
      exact List.count_eq_zero.mpr hmiss
  have hne : (resolveIndexAttrs table.schema attrs).length ≠ attrs.length :=
    Nat.ne_of_lt hlen
  unfold Catalog.CreateIndex
  simp only [if_neg hdoid, if_neg htoid, hdb, htab, if_pos hne]

/-- Witness for the amended C4: on the distinct-column table, requesting
`["x", "zz"]` fails and leaves the catalog unchanged. -/
theorem createIndex_missing_attr_fails_witness :
    ("zz" ∈ ["x", "zz"] ∧ "zz" ∉ tableXY.schema.map Column.column_name) ∧
    Catalog.CreateIndex (oneTableState tableXY) "d" "t" ["x", "zz"] "idx" false
      IndexType.BWTREE = (ResultType.FAILURE, oneTableState tableXY) :=
  ⟨⟨by decide, by decide⟩,
    createIndex_missing_attr_fails (oneTableState tableXY) "d" "t" ["x", "zz"] "idx" false
      IndexType.BWTREE { oid := 1, name := "d", tables := [tableXY] } tableXY
      (by decide) (by decide) (by decide) (by decide) (by decide)
      "zz" (by decide) (by decide)⟩

/-! ## CreatePrimaryIndex (C3) -/

/-- C3: with database and table resolvable, `CreatePrimaryIndex` succeeds and
attaches one index whose key ordinals are exactly the primary-flagged
ordinals in increasing column order, whose key schema is exactly the
primary-flagged columns in order, named upper-cased `<table>_PKEY`, unique,
tree-structured and `PRIMARY_KEY`-constrained. -/
theorem createPrimaryIndex_key_and_flags (s : Catalog) (dn tn : String)
    (db : Database) (table : DataTable)
    (hdb : Catalog.GetDatabaseWithName s dn = some db)
    (ht : db.GetTableWithName tn = some table) :
    (Catalog.CreatePrimaryIndex s dn tn).1 = ResultType.SUCCESS ∧
    ∃ meta : IndexMetadata,
      Catalog.GetTableWithName (Catalog.CreatePrimaryIndex s dn tn).2 dn tn =
        some (table.AddIndex meta) ∧
      meta.key_attrs.Pairwise (· < ·) ∧
      (∀ i : Nat, i ∈ meta.key_attrs ↔
        ∃ c, table.schema.get? i = some c ∧ c.is_primary = true) ∧
      meta.key_schema = table.schema.filter (fun c => c.is_primary) ∧
      meta.name = StringUtil.Upper table.name ++ "_PKEY" ∧
      meta.unique_keys = true ∧
      meta.index_type = IndexType.BWTREE ∧
      meta.index_constraint = IndexConstraintType.PRIMARY_KEY := by
  have hdb' : s.databases.find?
      (fun d => d.oid == DatabaseCatalog.GetDatabaseOid s.pgDatabase dn) = some db := hdb
  have hoid : db.oid = DatabaseCatalog.GetDatabaseOid s.pgDatabase dn := by
    have := List.find?_some hdb'
    simpa using this
  have ht' : db.tables.find? (fun t => t.name == tn) = some table := ht
  have htname : table.name = tn := by
    have := List.find?_some ht'
    simpa using this
  unfold Catalog.CreatePrimaryIndex
  simp only [hdb, ht]
  refine ⟨trivial, ?_⟩
  set meta : IndexMetadata :=
    { name := StringUtil.Upper (table.name ++ "_PKEY")
      oid := s.catalog_oid_counter
      table_oid := table.oid
      database_oid := db.oid
      index_type := IndexType.BWTREE
      index_constraint := IndexConstraintType.PRIMARY_KEY
      key_schema := Schema.CopySchema table.schema
        (scanOrdinals (fun c => c.is_primary) table.schema 0)
      key_attrs := scanOrdinals (fun c => c.is_primary) table.schema 0
      unique_keys := true } with hmeta
  refine ⟨meta, ?_, scanOrdinals_sorted _ _,
    fun i => mem_scanOrdinals_zero, copySchema_scanOrdinals table.schema, ?_, rfl, rfl, rfl⟩
  · have hpf : ((fun (d : Database) => d.oid == db.oid)
        { db with tables := updateFirst (fun t => t.name == tn)
                              (fun t => t.AddIndex meta) db.tables }) = true := by
      show (db.oid == db.oid) = true
      simp
    have hdb'' : s.databases.find? (fun d => d.oid == db.oid) = some db := by
      rw [hoid]; exact hdb'
    have hfindA := @updateFirst_find?_self Database (fun d => d.oid == db.oid)
      (fun d => { d with tables := updateFirst (fun t => t.name == tn)
                           (fun t => t.AddIndex meta) d.tables })
      s.databases db hdb'' hpf
    have hfindB : (updateFirst (fun d => d.oid == db.oid)
        (fun d => { d with tables := updateFirst (fun t => t.name == tn)
                             (fun t => t.AddIndex meta) d.tables }) s.databases).find?
        (fun d => d.oid == DatabaseCatalog.GetDatabaseOid s.pgDatabase dn) =
        some { db with tables := updateFirst (fun t => t.name == tn)
                         (fun t => t.AddIndex meta) db.tables } := by
      rw [← hoid]
      exact hfindA
    unfold Catalog.GetTableWithName Catalog.GetDatabaseWithName Catalog.GetDatabaseWithOid
    simp only []
    rw [hfindB]
    show Database.GetTableWithName _ tn = _
    unfold Database.GetTableWithName
    have hpt : ((fun (t : DataTable) => t.name == tn) (table.AddIndex meta)) = true := by
      show (table.name == tn) = true
      simp [htname]
    exact @updateFirst_find?_self DataTable (fun t => t.name == tn)
      (fun t => t.AddIndex meta) db.tables table ht' hpt
  · rw [hmeta]
    show StringUtil.Upper (table.name ++ "_PKEY") = _
    rw [upper_append]
    have : StringUtil.Upper "_PKEY" = "_PKEY" := by decide
    rw [this]

/-- Witness for C3 on the spec's example table `[a:PRIMARY, b, c:PRIMARY]`:
the collected ordinals are exactly `[0, 2]`. -/
theorem createPrimaryIndex_key_and_flags_witness :
    scanOrdinals (fun c => c.is_primary) tableABC.schema 0 = [0, 2] ∧
    ((Catalog.CreatePrimaryIndex (oneTableState tableABC) "d" "t").1 = ResultType.SUCCESS ∧
     ∃ meta : IndexMetadata,
       Catalog.GetTableWithName (Catalog.CreatePrimaryIndex (oneTableState tableABC) "d" "t").2
         "d" "t" = some (tableABC.AddIndex meta) ∧
       meta.key_attrs.Pairwise (· < ·) ∧
       (∀ i : Nat, i ∈ meta.key_attrs ↔
         ∃ c, tableABC.schema.get? i = some c ∧ c.is_primary = true) ∧
       meta.key_schema = tableABC.schema.filter (fun c => c.is_primary) ∧
       meta.name = StringUtil.Upper tableABC.name ++ "_PKEY" ∧
       meta.unique_keys = true ∧
       meta.index_type = IndexType.BWTREE ∧
       meta.index_constraint = IndexConstraintType.PRIMARY_KEY) :=
  ⟨by decide,
    createPrimaryIndex_key_and_flags (oneTableState tableABC) "d" "t"
      { oid := 1, name := "d", tables := [tableABC] } tableABC (by decide) (by decide)⟩

/-! ## Dual bookkeeping (C1) -/

/-- C1 counterexample: the two-operation trace `CreateDatabase "db";
CreateTable "db" "t" [a:PRIMARY]` reports `SUCCESS` twice, yet in the
resulting state the primary-key index attached to the live table has no
`pg_index` row (`CreatePrimaryIndex` inserts none), so the index half of the
dual-bookkeeping invariant fails. -/
theorem dualBookkeeping_index_cex :
    execSucc initState c1ops = some c1final ∧ ¬ ConsistentIndex c1final := by
  refine ⟨rfl, ?_⟩
  intro h
  have h1 : (1 : Nat) ∈ (Catalog.liveIndexes c1final).map IndexMetadata.oid := by decide
  exact absurd ((h 1).mp h1) (by decide)

/-! ## The inductive invariant behind the amended C1, and its machinery -/

theorem mem_liveTables {s : Catalog} {t : DataTable} :
    t ∈ Catalog.liveTables s ↔ ∃ d ∈ s.databases, t ∈ d.tables := by
  unfold Catalog.liveTables
  simp only [List.mem_flatten, List.mem_map]
  constructor
  · rintro ⟨l, ⟨d, hd, rfl⟩, ht⟩
    exact ⟨d, hd, ht⟩
  · rintro ⟨d, hd, ht⟩
    exact ⟨d.tables, ⟨d, hd, rfl⟩, ht⟩

theorem mem_liveTablePairs {s : Catalog} {x y : Nat} :
    (x, y) ∈ Catalog.liveTablePairs s ↔
      ∃ d ∈ s.databases, d.oid = x ∧ ∃ t ∈ d.tables, t.oid = y := by
  unfold Catalog.liveTablePairs
  simp only [List.mem_flatten, List.mem_map]
  constructor
  · rintro ⟨l, ⟨d, hd, rfl⟩, hp⟩
    obtain ⟨t, ht, heq⟩ := List.mem_map.mp hp
    obtain ⟨h1, h2⟩ := Prod.mk.injEq .. ▸ heq
    exact ⟨d, hd, h1, t, ht, h2⟩
  · rintro ⟨d, hd, rfl, t, ht, rfl⟩
    exact ⟨d.tables.map (fun t => (d.oid, t.oid)), ⟨d, hd, rfl⟩,
      List.mem_map_of_mem _ ht⟩

theorem mem_liveColumnKeys {s : Catalog} {x : Nat} {y : String} :
    (x, y) ∈ Catalog.liveColumnKeys s ↔
      ∃ t ∈ Catalog.liveTables s, t.oid = x ∧ y ∈ t.schema.map Column.column_name := by
  unfold Catalog.liveColumnKeys
  simp only [List.mem_flatten, List.mem_map]
  constructor
  · rintro ⟨l, ⟨t, ht, rfl⟩, hp⟩
    obtain ⟨c, hc, heq⟩ := List.mem_map.mp hp
    obtain ⟨h1, h2⟩ := Prod.mk.injEq .. ▸ heq
    exact ⟨t, ht, h1, ⟨c, hc, h2⟩⟩
  · rintro ⟨t, ht, rfl, hy⟩
    obtain ⟨c, hc, rfl⟩ := hy
    exact ⟨t.schema.map (fun c => (t.oid, c.column_name)), ⟨t, ht, rfl⟩,
      List.mem_map_of_mem _ hc⟩

theorem map_comp_congr (g : α → β) (h : β → γ) {l l' : List α}
    (he : l.map g = l'.map g) : l.map (fun a => h (g a)) = l'.map (fun a => h (g a)) := by
  have : (fun a => h (g a)) = h ∘ g := rfl
  rw [this, ← List.map_map, ← List.map_map, he]

/-- The live-table skeletons, pairs and column keys of a catalog are all
functions of `map dbSkel databases`. -/
theorem liveTables_tSkel_congr {s s' : Catalog}
    (h : s'.databases.map dbSkel = s.databases.map dbSkel) :
    (Catalog.liveTables s').map tSkel = (Catalog.liveTables s).map tSkel := by
  unfold Catalog.liveTables
  rw [List.map_flatten, List.map_flatten]
  have h1 : ∀ (dbs : List Database),
      (dbs.map (fun d => d.tables)).map (List.map tSkel) =
        dbs.map (fun d => (dbSkel d).2) := by
    intro dbs
    rw [List.map_map]
    rfl
  rw [h1, h1]
  exact congrArg List.flatten (map_comp_congr dbSkel Prod.snd h)

theorem liveTablePairs_congr {s s' : Catalog}
    (h : s'.databases.map dbSkel = s.databases.map dbSkel) :
    Catalog.liveTablePairs s' = Catalog.liveTablePairs s := by
  unfold Catalog.liveTablePairs
  have h1 : ∀ (dbs : List Database),
      dbs.map (fun d => d.tables.map (fun t => (d.oid, t.oid))) =
        dbs.map (fun d => (dbSkel d).2.map (fun w => ((dbSkel d).1, w.1))) := by
    intro dbs
    apply List.map_congr_left
    intro d _
    show _ = (d.tables.map tSkel).map (fun w => (d.oid, w.1))
    rw [List.map_map]
    rfl
  rw [h1, h1]
  exact congrArg List.flatten
    (map_comp_congr dbSkel (fun q => q.2.map (fun w => (q.1, w.1))) h)

theorem liveColumnKeys_congr {s s' : Catalog}
    (h : s'.databases.map dbSkel = s.databases.map dbSkel) :
    Catalog.liveColumnKeys s' = Catalog.liveColumnKeys s := by
  unfold Catalog.liveColumnKeys
  have key : ∀ (ts : List DataTable),
      ts.map (fun t => t.schema.map (fun c => (t.oid, c.column_name))) =
        (ts.map tSkel).map (fun q => q.2.2.map (fun c => (q.1, c.column_name))) := by
    intro ts
    rw [List.map_map]
    rfl
  rw [key, key, liveTables_tSkel_congr h]

theorem map_oid_congr {s s' : Catalog}
    (h : s'.databases.map dbSkel = s.databases.map dbSkel) :
    s'.databases.map Database.oid = s.databases.map Database.oid := by
  have := map_comp_congr dbSkel Prod.fst h
  exact this

theorem liveTables_oid_congr {s s' : Catalog}
    (h : s'.databases.map dbSkel = s.databases.map dbSkel) :
    (Catalog.liveTables s').map DataTable.oid = (Catalog.liveTables s).map DataTable.oid := by
  have h2 := liveTables_tSkel_congr h
  have h3 : ∀ (ts : List DataTable), ts.map DataTable.oid = (ts.map tSkel).map Prod.fst := by
    intro ts
    rw [List.map_map]
    rfl
  rw [h3, h3, h2]

/-- `Inv` only depends on the database skeletons, the first three catalog
tables and the two relevant counters. -/
theorem catInv_congr {s s' : Catalog}
    (hdbs : s'.databases.map dbSkel = s.databases.map dbSkel)
    (hpgD : s'.pgDatabase = s.pgDatabase) (hpgT : s'.pgTable = s.pgTable)
    (hpgC : s'.pgColumn = s.pgColumn)
    (hcD : s'.database_oid_counter = s.database_oid_counter)
    (hcT : s'.table_oid_counter = s.table_oid_counter)
    (hinv : CatInv s) : CatInv s' := by
  refine ⟨?_, ?_, ?_, ?_, ?_, ?_, ?_, ?_⟩
  · rw [map_oid_congr hdbs]
    exact hinv.dbNodup
  · intro d hd
    have : d.oid ∈ s'.databases.map Database.oid := List.mem_map_of_mem _ hd
    rw [map_oid_congr hdbs] at this
    obtain ⟨d0, hd0, hoid⟩ := List.mem_map.mp this
    rw [hcD, ← hoid]
    exact hinv.dbLt d0 hd0
  · intro o
    rw [map_oid_congr hdbs, hpgD]
    exact hinv.dbCorr o
  · rw [liveTables_oid_congr hdbs]
    exact hinv.tableNodup
  · intro t ht
    have : t.oid ∈ (Catalog.liveTables s').map DataTable.oid := List.mem_map_of_mem _ ht
    rw [liveTables_oid_congr hdbs] at this
    obtain ⟨t0, ht0, hoid⟩ := List.mem_map.mp this
    rw [hcT, ← hoid]
    exact hinv.tableLt t0 ht0
  · rw [hpgT]
    exact hinv.tableTupNodup
  · intro x y
    rw [liveTablePairs_congr hdbs, hpgT]
    exact hinv.tablePairs x y
  · intro x y
    rw [liveColumnKeys_congr hdbs, hpgC]
    exact hinv.colCorr x y

/-- Decomposition of a list at its first `p`-match: the prefix is `p`-free,
and `updateFirst`/`removeFirst` act exactly at the match. -/
theorem find?_decomp {p : α → Bool} {l : List α} {a : α} (h : l.find? p = some a) :
    ∃ l₁ l₂, l = l₁ ++ a :: l₂ ∧ (∀ x ∈ l₁, p x = false) ∧ p a = true ∧
      (∀ f : α → α, updateFirst p f l = l₁ ++ f a :: l₂) ∧
      removeFirst p l = l₁ ++ l₂ := by
  induction l with
  | nil => simp at h
  | cons b rest ih =>
    by_cases hb : p b
    · rw [List.find?_cons_of_pos _ hb] at h
      cases h
      exact ⟨[], rest, rfl, by simp, hb, fun f => by simp [updateFirst, hb],
        by simp [removeFirst, hb]⟩
    · rw [List.find?_cons_of_neg _ hb] at h
      obtain ⟨l₁, l₂, rfl, hl₁, hpa, hupd, hrem⟩ := ih h
      refine ⟨b :: l₁, l₂, rfl, ?_, hpa, ?_, ?_⟩
      · intro x hx
        rcases List.mem_cons.mp hx with rfl | hx
        · simpa using hb
        · exact hl₁ x hx
      · intro f
        simp [updateFirst, hb, hupd f]
      · simp [removeFirst, hb, hrem]

theorem find?_middle {p : α → Bool} {l₁ l₂ : List α} {a : α}
    (h₁ : ∀ x ∈ l₁, p x = false) (ha : p a = true) :
    (l₁ ++ a :: l₂).find? p = some a := by
  induction l₁ with
  | nil => simpa using List.find?_cons_of_pos l₂ ha
  | cons b rest ih =>
    have hb : ¬ p b = true := by
      simp [h₁ b (List.mem_cons_self ..)]
    rw [List.cons_append, List.find?_cons_of_neg _ hb]
    exact ih (fun x hx => h₁ x (List.mem_cons_of_mem _ hx))

/-- Attaching an index to a table does not change its skeleton. -/
theorem tSkel_addIndex (t : DataTable) (m : IndexMetadata) : tSkel (t.AddIndex m) = tSkel t :=
  rfl

/-- A database mutation touching only index lists inside tables does not
change database skeletons. -/
theorem dbSkel_updateIndexes (p : DataTable → Bool) (m : IndexMetadata) (d : Database) :
    dbSkel { d with tables := updateFirst p (fun t => t.AddIndex m) d.tables } = dbSkel d := by
  unfold dbSkel
  simp only []
  exact congrArg (Prod.mk d.oid)
    (@updateFirst_map_eq DataTable (Nat × String × List Column) p
      (fun t => t.AddIndex m) tSkel d.tables (fun t => rfl))

/-- `CreatePrimaryIndex` only ever touches index lists (and the catalog-oid
counter): the bookkeeping-relevant state is untouched. -/
theorem createPrimaryIndex_skel (s : Catalog) (dn tn : String) :
    (Catalog.CreatePrimaryIndex s dn tn).2.databases.map dbSkel = s.databases.map dbSkel ∧
    (Catalog.CreatePrimaryIndex s dn tn).2.pgDatabase = s.pgDatabase ∧
    (Catalog.CreatePrimaryIndex s dn tn).2.pgTable = s.pgTable ∧
    (Catalog.CreatePrimaryIndex s dn tn).2.pgColumn = s.pgColumn ∧
    (Catalog.CreatePrimaryIndex s dn tn).2.database_oid_counter = s.database_oid_counter ∧
    (Catalog.CreatePrimaryIndex s dn tn).2.table_oid_counter = s.table_oid_counter := by
  unfold Catalog.CreatePrimaryIndex
  cases hdb : Catalog.GetDatabaseWithName s dn with
  | none => simp [hdb]
  | some db =>
    cases ht : db.GetTableWithName tn with
    | none => simp [ht]
    | some table =>
      simp only [ht]
      refine ⟨?_, trivial, trivial, trivial, trivial, trivial⟩
      exact updateFirst_map_eq dbSkel (fun d => dbSkel_updateIndexes _ _ d)

/-- `CreateIndex` likewise only touches index lists, the `pg_index` table and
the index-oid counter. -/
theorem createIndex_skel (s : Catalog) (dn tn : String) (attrs : List String)
    (idxn : String) (u : Bool) (ty : IndexType) :
    (Catalog.CreateIndex s dn tn attrs idxn u ty).2.databases.map dbSkel =
      s.databases.map dbSkel ∧
    (Catalog.CreateIndex s dn tn attrs idxn u ty).2.pgDatabase = s.pgDatabase ∧
    (Catalog.CreateIndex s dn tn attrs idxn u ty).2.pgTable = s.pgTable ∧
    (Catalog.CreateIndex s dn tn attrs idxn u ty).2.pgColumn = s.pgColumn ∧
    (Catalog.CreateIndex s dn tn attrs idxn u ty).2.database_oid_counter =
      s.database_oid_counter ∧
    (Catalog.CreateIndex s dn tn attrs idxn u ty).2.table_oid_counter =
      s.table_oid_counter := by
  unfold Catalog.CreateIndex
  by_cases h1 : DatabaseCatalog.GetDatabaseOid s.pgDatabase dn = 0
  · simp [h1]
  · rw [if_neg h1]
    by_cases h2 : TableCatalog.GetTableOid s.pgTable tn = 0
    · simp [h2]
    · rw [if_neg h2]
      cases h3 : Catalog.GetDatabaseWithOid s
          (DatabaseCatalog.GetDatabaseOid s.pgDatabase dn) with
      | none => simp [h3]
      | some db =>
        cases h4 : db.GetTableWithOid (TableCatalog.GetTableOid s.pgTable tn) with
        | none => simp [h3, h4]
        | some table =>
          by_cases h5 : (resolveIndexAttrs table.schema attrs).length ≠ attrs.length
          · simp [h3, h4, h5]
          · simp only [h3, h4, if_neg h5]
            refine ⟨?_, trivial, trivial, trivial, trivial, trivial⟩
            exact updateFirst_map_eq dbSkel (fun d => dbSkel_updateIndexes _ _ d)

/-- `DropIndex` can never report `SUCCESS` (the inverted presence check). -/
theorem dropIndex_no_success (s : Catalog) (a b : Nat) (r : ResultType) (s' : Catalog)
    (h : Catalog.DropIndex s a b = some (r, s')) : r = ResultType.FAILURE ∧ s' = s := by
  unfold Catalog.DropIndex at h
  cases h3 : Catalog.GetDatabaseWithOid s a with
  | some db =>
    rw [h3] at h
    cases h
    exact ⟨rfl, rfl⟩
  | none =>
    rw [h3] at h
    by_cases h4 : IndexCatalog.GetTableidByOid s.pgIndex b = 0
    · rw [if_pos h4] at h
      cases h
      exact ⟨rfl, rfl⟩
    · rw [if_neg h4] at h
      exact absurd h (by simp)

/-- `CreateDatabase` preserves the invariant. -/
theorem createDatabase_inv (s : Catalog) (n : String) (hinv : CatInv s) :
    CatInv (Catalog.CreateDatabase s n).2 := by
  unfold Catalog.CreateDatabase
  by_cases h1 : DatabaseCatalog.GetDatabaseOid s.pgDatabase n ≠ 0
  · rw [if_pos h1]
    exact hinv
  · rw [if_neg h1]
    simp only []
    set c := s.database_oid_counter with hc
    set D : Database := { oid := c, name := n, tables := [] } with hD
    set S' : Catalog :=
      { s with
        databases := s.databases ++ [D]
        pgDatabase := s.pgDatabase ++ [{ oid := c, name := n }]
        database_oid_counter := s.database_oid_counter + 1 } with hS'
    show CatInv S'
    have hLT : Catalog.liveTables S' = Catalog.liveTables s := by
      show (List.map (fun d => d.tables) (s.databases ++ [D])).flatten = _
      rw [List.map_append, List.flatten_append]
      simp [hD, Catalog.liveTables]
    have hPairs : Catalog.liveTablePairs S' = Catalog.liveTablePairs s := by
      show (List.map (fun d => d.tables.map (fun t => (d.oid, t.oid)))
        (s.databases ++ [D])).flatten = _
      rw [List.map_append, List.flatten_append]
      simp [hD, Catalog.liveTablePairs]
    have hKeys : Catalog.liveColumnKeys S' = Catalog.liveColumnKeys s := by
      unfold Catalog.liveColumnKeys
      rw [hLT]
    have hfresh : ∀ d ∈ s.databases, d.oid ≠ c := by
      intro d hd
      exact Nat.ne_of_lt (hinv.dbLt d hd)
    refine ⟨?_, ?_, ?_, ?_, ?_, ?_, ?_, ?_⟩
    · show (List.map Database.oid (s.databases ++ [D])).Nodup
      rw [List.map_append]
      rw [List.nodup_append]
      refine ⟨hinv.dbNodup, by simp, ?_⟩
      intro o ho ho'
      obtain ⟨d, hd, rfl⟩ := List.mem_map.mp ho
      have hoc : d.oid = c := by simpa [hD] using ho'
      exact hfresh d hd hoc
    · intro d hd
      rcases List.mem_append.mp hd with hd | hd
      · exact Nat.lt_succ_of_lt (hinv.dbLt d hd)
      · rcases List.mem_singleton.mp hd with rfl
        exact Nat.lt_succ_self c
    · intro o
      show o ∈ List.map Database.oid (s.databases ++ [D]) ↔
        o ∈ List.map DatabaseTuple.oid (s.pgDatabase ++ [{ oid := c, name := n }])
      rw [List.map_append, List.map_append, List.mem_append, List.mem_append]
      exact or_congr (hinv.dbCorr o) Iff.rfl
    · rw [hLT]
      exact hinv.tableNodup
    · intro t ht
      rw [hLT] at ht
      exact hinv.tableLt t ht
    · exact hinv.tableTupNodup
    · intro x y
      rw [hPairs]
      exact hinv.tablePairs x y
    · intro x y
      rw [hKeys]
      exact hinv.colCorr x y

theorem mem_columnTuplesOf {T : Nat} {sch : List Column} {x : Nat} {y : String} :
    ∀ {i : Nat}, (∃ ct ∈ columnTuplesOf T sch i, ct.table_oid = x ∧ ct.column_name = y) ↔
      (x = T ∧ y ∈ sch.map Column.column_name) := by
  induction sch with
  | nil => simp [columnTuplesOf]
  | cons c rest ih =>
    intro i
    simp only [columnTuplesOf, List.mem_cons, List.map_cons]
    constructor
    · rintro ⟨ct, hct | hct, hx, hy⟩
      · subst hct
        exact ⟨hx.symm, Or.inl hy.symm⟩
      · obtain ⟨hx', hy'⟩ := ih.mp ⟨ct, hct, hx, hy⟩
        exact ⟨hx', Or.inr hy'⟩
    · rintro ⟨hxT, hy | hy⟩
      · exact ⟨{ table_oid := T, column_name := c.column_name, offset := i },
          Or.inl rfl, hxT.symm, hy.symm⟩
      · obtain ⟨ct, hct, hx, hy'⟩ := ih.mpr ⟨hxT, hy⟩
        exact ⟨ct, Or.inr hct, hx, hy'⟩

/-- `CreateTable` preserves the invariant (whatever result it reports). -/
theorem createTable_inv (s : Catalog) (dn tn : String) (sch : List Column)
    (hinv : CatInv s) (r : ResultType) (s' : Catalog)
    (h : Catalog.CreateTable s dn tn sch = (r, s')) : CatInv s' := by
  unfold Catalog.CreateTable at h
  cases hdb : Catalog.GetDatabaseWithName s dn with
  | none =>
    simp only [hdb] at h
    cases h
    exact hinv
  | some db =>
    cases ht : db.GetTableWithName tn with
    | some t0 =>
      simp only [hdb, ht] at h
      cases h
      exact hinv
    | none =>
      simp only [hdb, ht] at h
      set T := s.table_oid_counter with hT
      set table : DataTable := { oid := T, name := tn, schema := sch, indexes := [] }
        with htable
      set TT : TableTuple := { oid := T, name := tn, database_oid := db.oid
                               database_name := dn } with hTT
      set s1 : Catalog :=
        { s with
          table_oid_counter := s.table_oid_counter + 1
          databases := updateFirst (fun d => d.oid == db.oid)
            (fun d => { d with tables := d.tables ++ [table] }) s.databases
          pgTable := s.pgTable ++ [TT]
          pgColumn := s.pgColumn ++ columnTuplesOf T sch 0 } with hs1
      have hdb' : s.databases.find?
          (fun d => d.oid == DatabaseCatalog.GetDatabaseOid s.pgDatabase dn) = some db := hdb
      have hoid : db.oid = DatabaseCatalog.GetDatabaseOid s.pgDatabase dn := by
        simpa using List.find?_some hdb'
      have hdb'' : s.databases.find? (fun d => d.oid == db.oid) = some db := by
        rw [hoid]
        exact hdb'
      obtain ⟨l₁, l₂, hde, hl₁, hpdb, hupd, hrem⟩ := find?_decomp hdb''
      have hdbs1 : s1.databases =
          l₁ ++ { db with tables := db.tables ++ [table] } :: l₂ := by
        rw [hs1]
        exact hupd _
      have hLT : Catalog.liveTables s =
          (l₁.map (fun d => d.tables)).flatten ++ db.tables ++
            (l₂.map (fun d => d.tables)).flatten := by
        unfold Catalog.liveTables
        rw [hde]
        simp [List.append_assoc]
      have hLT1 : Catalog.liveTables s1 =
          (l₁.map (fun d => d.tables)).flatten ++ (db.tables ++ [table]) ++
            (l₂.map (fun d => d.tables)).flatten := by
        unfold Catalog.liveTables
        rw [hdbs1]
        simp [List.append_assoc]
      have hmemT : ∀ t' : DataTable,
          t' ∈ Catalog.liveTables s1 ↔ t' ∈ Catalog.liveTables s ∨ t' = table := by
        intro t'
        rw [hLT, hLT1]
        simp only [List.mem_append, List.mem_singleton]
        tauto
      have htLt : ∀ t ∈ Catalog.liveTables s, t.oid < T := hinv.tableLt
      have hinv1 : CatInv s1 := by
        refine ⟨?_, ?_, ?_, ?_, ?_, ?_, ?_, ?_⟩
        · show (s1.databases.map Database.oid).Nodup
          have : s1.databases.map Database.oid = s.databases.map Database.oid := by
            rw [hs1]
            exact updateFirst_map_eq Database.oid (fun d => rfl)
          rw [this]
          exact hinv.dbNodup
        · intro d hd
          rw [hdbs1] at hd
          have hd0 : d ∈ s.databases ∨ d = { db with tables := db.tables ++ [table] } := by
            rw [hde]
            simp only [List.mem_append, List.mem_cons] at hd ⊢
            tauto
          show d.oid < s1.database_oid_counter
          rcases hd0 with hd0 | rfl
          · exact hinv.dbLt d hd0
          · exact hinv.dbLt db (by rw [hde]; simp)
        · intro o
          have : s1.databases.map Database.oid = s.databases.map Database.oid := by
            rw [hs1]
            exact updateFirst_map_eq Database.oid (fun d => rfl)
          rw [this]
          exact hinv.dbCorr o
        · show ((Catalog.liveTables s1).map DataTable.oid).Nodup
          have hm : (Catalog.liveTables s1).map DataTable.oid =
              (((l₁.map (fun d => d.tables)).flatten.map DataTable.oid ++
                db.tables.map DataTable.oid) ++ T ::
                  (l₂.map (fun d => d.tables)).flatten.map DataTable.oid) := by
            rw [hLT1]
            simp [List.append_assoc]
          rw [hm, List.nodup_middle]
          rw [List.nodup_cons]
          constructor
          · intro hTmem
            have : T ∈ (Catalog.liveTables s).map DataTable.oid := by
              rw [hLT]
              simpa [List.append_assoc] using hTmem
            obtain ⟨t, htmem, hto⟩ := List.mem_map.mp this
            exact absurd (hto ▸ htLt t htmem) (Nat.lt_irrefl T)
          · have : (Catalog.liveTables s).map DataTable.oid =
                ((l₁.map (fun d => d.tables)).flatten.map DataTable.oid ++
                  db.tables.map DataTable.oid) ++
                  (l₂.map (fun d => d.tables)).flatten.map DataTable.oid := by
              rw [hLT]
              simp [List.append_assoc]
            rw [← this]
            exact hinv.tableNodup
        · intro t ht'
          rcases (hmemT t).mp ht' with ht' | rfl
          · exact Nat.lt_succ_of_lt (htLt t ht')
          · exact Nat.lt_succ_self T
        · show ((s.pgTable ++ [TT]).map TableTuple.oid).Nodup
          rw [List.map_append, List.nodup_append]
          refine ⟨hinv.tableTupNodup, by simp, ?_⟩
          intro o ho ho'
          obtain ⟨tt, htt, rfl⟩ := List.mem_map.mp ho
          have hoT : tt.oid = T := by simpa [hTT] using ho'
          have hp : (tt.database_oid, tt.oid) ∈ Catalog.liveTablePairs s :=
            (hinv.tablePairs tt.database_oid tt.oid).mpr ⟨tt, htt, rfl, rfl⟩
          obtain ⟨d, hd, hdo, t, htm, hto⟩ := mem_liveTablePairs.mp hp
          have : t ∈ Catalog.liveTables s := mem_liveTables.mpr ⟨d, hd, htm⟩
          have hlt := htLt t this
          rw [hto, hoT] at hlt
          exact absurd hlt (Nat.lt_irrefl T)
        · intro x y
          have hmemD : ∀ d' : Database, d' ∈ s1.databases ↔
              (d' ∈ l₁ ∨ d' ∈ l₂) ∨ d' = { db with tables := db.tables ++ [table] } := by
            intro d'
            rw [hdbs1]
            simp only [List.mem_append, List.mem_cons]
            tauto
          have hmemDs : ∀ d' : Database, d' ∈ s.databases ↔
              (d' ∈ l₁ ∨ d' ∈ l₂) ∨ d' = db := by
            intro d'
            rw [hde]
            simp only [List.mem_append, List.mem_cons]
            tauto
          constructor
          · intro hp
            obtain ⟨d', hd', hdo, t, htm, hto⟩ := mem_liveTablePairs.mp hp
            rcases (hmemD d').mp hd' with hd' | rfl
            · have hps : (x, y) ∈ Catalog.liveTablePairs s :=
                mem_liveTablePairs.mpr ⟨d', (hmemDs d').mpr (Or.inl hd'), hdo, t, htm, hto⟩
              obtain ⟨tt, htt, h1, h2⟩ := (hinv.tablePairs x y).mp hps
              exact ⟨tt, List.mem_append_left _ htt, h1, h2⟩
            · rcases List.mem_append.mp htm with htm | htm
              · have hps : (x, y) ∈ Catalog.liveTablePairs s :=
                  mem_liveTablePairs.mpr ⟨db, (hmemDs db).mpr (Or.inr rfl), hdo, t, htm, hto⟩
                obtain ⟨tt, htt, h1, h2⟩ := (hinv.tablePairs x y).mp hps
                exact ⟨tt, List.mem_append_left _ htt, h1, h2⟩
              · rcases List.mem_singleton.mp htm with rfl
                refine ⟨TT, List.mem_append_right _ (by simp), ?_, ?_⟩
                · simpa [hTT] using hto
                · simpa [hTT] using hdo
          · rintro ⟨tt, htt, h1, h2⟩
            rcases List.mem_append.mp htt with htt | htt
            · obtain hps := (hinv.tablePairs x y).mpr ⟨tt, htt, h1, h2⟩
              obtain ⟨d', hd', hdo, t, htm, hto⟩ := mem_liveTablePairs.mp hps
              rcases (hmemDs d').mp hd' with hd' | heq
              · exact mem_liveTablePairs.mpr
                  ⟨d', (hmemD d').mpr (Or.inl hd'), hdo, t, htm, hto⟩
              · rw [heq] at hdo htm
                exact mem_liveTablePairs.mpr
                  ⟨{ db with tables := db.tables ++ [table] },
                    (hmemD _).mpr (Or.inr rfl), hdo, t, List.mem_append_left _ htm, hto⟩
            · rcases List.mem_singleton.mp htt with rfl
              refine mem_liveTablePairs.mpr
                ⟨{ db with tables := db.tables ++ [table] }, (hmemD _).mpr (Or.inr rfl),
                  ?_, table, List.mem_append_right _ (by simp), ?_⟩
              · simpa [hTT] using h2
              · simpa [hTT, htable] using h1
        · intro x y
          rw [mem_liveColumnKeys]
          constructor
          · rintro ⟨t, htm, rfl, hy⟩
            rcases (hmemT t).mp htm with htm | rfl
            · obtain ⟨ct, hct, h1, h2⟩ :=
                (hinv.colCorr t.oid y).mp (mem_liveColumnKeys.mpr ⟨t, htm, rfl, hy⟩)
              exact ⟨ct, List.mem_append_left _ hct, h1, h2⟩
            · obtain ⟨ct, hct, h1, h2⟩ := mem_columnTuplesOf.mpr ⟨rfl, by simpa using hy⟩
              exact ⟨ct, List.mem_append_right _ hct, h1, h2⟩
          · rintro ⟨ct, hct, h1, h2⟩
            rcases List.mem_append.mp hct with hct | hct
            · obtain hk := (hinv.colCorr x y).mpr ⟨ct, hct, h1, h2⟩
              obtain ⟨t, htm, hto, hy⟩ := mem_liveColumnKeys.mp hk
              exact ⟨t, (hmemT t).mpr (Or.inl htm), hto, hy⟩
            · obtain ⟨hx, hy⟩ := mem_columnTuplesOf.mp ⟨ct, hct, h1, h2⟩
              exact ⟨table, (hmemT table).mpr (Or.inr rfl), by simp [htable, hx],
                by simpa [htable] using hy⟩
      by_cases hp : sch.any (fun c => c.is_primary)
      · rw [if_pos hp] at h
        have hs' : (Catalog.CreatePrimaryIndex s1 dn tn).2 = s' := congrArg Prod.snd h
        obtain ⟨e1, e2, e3, e4, e5, e6⟩ := createPrimaryIndex_skel s1 dn tn
        rw [hs'] at e1 e2 e3 e4 e5 e6
        exact catInv_congr e1 e2 e3 e4 e5 e6 hinv1
      · rw [if_neg hp] at h
        injection h with hr hs'
        subst hs'
        exact hinv1

theorem updateFirst_middle {p : α → Bool} {l₁ l₂ : List α} {a : α}
    (h₁ : ∀ x ∈ l₁, p x = false) (ha : p a = true) (f : α → α) :
    updateFirst p f (l₁ ++ a :: l₂) = l₁ ++ f a :: l₂ := by
  induction l₁ with
  | nil => simp [updateFirst, ha]
  | cons b rest ih =>
    have hb : ¬ p b = true := by simp [h₁ b (List.mem_cons_self ..)]
    simp only [List.cons_append, updateFirst, if_neg hb]
    show b :: updateFirst p f (rest ++ a :: l₂) = _
    rw [ih (fun x hx => h₁ x (List.mem_cons_of_mem _ hx))]

theorem removeFirst_middle {p : α → Bool} {l₁ l₂ : List α} {a : α}
    (h₁ : ∀ x ∈ l₁, p x = false) (ha : p a = true) :
    removeFirst p (l₁ ++ a :: l₂) = l₁ ++ l₂ := by
  induction l₁ with
  | nil => simp [removeFirst, ha]
  | cons b rest ih =>
    have hb : ¬ p b = true := by simp [h₁ b (List.mem_cons_self ..)]
    simp only [List.cons_append, removeFirst, if_neg hb]
    show b :: removeFirst p (rest ++ a :: l₂) = _
    rw [ih (fun x hx => h₁ x (List.mem_cons_of_mem _ hx))]

/-- Membership in the column tuples left after `DropTable`'s per-column
deletion loop. -/
theorem mem_deleteColumns (T : Nat) (sch : List Column) :
    ∀ (pc : List ColumnTuple) (ct : ColumnTuple),
      (ct ∈ sch.foldl (fun acc c => ColumnCatalog.DeleteColumn acc T c.column_name) pc ↔
        ct ∈ pc ∧ ¬(ct.table_oid = T ∧ ct.column_name ∈ sch.map Column.column_name)) := by
  induction sch with
  | nil => intro pc ct; simp
  | cons c rest ih =>
    intro pc ct
    rw [List.foldl_cons, ih]
    unfold ColumnCatalog.DeleteColumn
    rw [List.mem_filter]
    simp only [List.map_cons, List.mem_cons, Bool.not_eq_true']
    constructor
    · rintro ⟨⟨hpc, hflt⟩, hnot⟩
      refine ⟨hpc, ?_⟩
      rintro ⟨hT, hy | hy⟩
      · simp at hflt
        exact hflt hT hy
      · exact hnot ⟨hT, hy⟩
    · rintro ⟨hpc, hnot⟩
      refine ⟨⟨hpc, ?_⟩, ?_⟩
      · by_cases hT : ct.table_oid = T
        · by_cases hy : ct.column_name = c.column_name
          · exact absurd ⟨hT, Or.inl hy⟩ hnot
          · simp [hy]
        · simp [hT]
      · rintro ⟨hT, hy⟩
        exact hnot ⟨hT, Or.inr hy⟩

/-- Core of the table-drop operations: removing one table (and its catalog
rows) at a decomposed position preserves the invariant. -/
theorem dropCore_inv (s : Catalog) (D T : Nat) (db : Database) (tbl : DataTable)
    (l₁ l₂ : List Database) (m₁ m₂ : List DataTable) (hinv : CatInv s)
    (hde : s.databases = l₁ ++ db :: l₂)
    (hDoid : db.oid = D)
    (hdecT : db.tables = m₁ ++ tbl :: m₂)
    (hToid : tbl.oid = T) :
    CatInv { s with
      databases := l₁ ++ { db with tables := m₁ ++ m₂ } :: l₂
      pgTable := s.pgTable.filter (fun tt => !(tt.oid == T))
      pgColumn := tbl.schema.foldl
        (fun acc c => ColumnCatalog.DeleteColumn acc T c.column_name) s.pgColumn } := by
  set S4 : Catalog :=
    { s with
      databases := l₁ ++ { db with tables := m₁ ++ m₂ } :: l₂
      pgTable := s.pgTable.filter (fun tt => !(tt.oid == T))
      pgColumn := tbl.schema.foldl
        (fun acc c => ColumnCatalog.DeleteColumn acc T c.column_name) s.pgColumn }
    with hS4
  have hmemTs : ∀ t' : DataTable, (t' ∈ Catalog.liveTables s ↔
      t' ∈ (l₁.map (fun d => d.tables)).flatten ∨ t' ∈ m₁ ∨ t' = tbl ∨ t' ∈ m₂ ∨
        t' ∈ (l₂.map (fun d => d.tables)).flatten) := by
    intro t'
    unfold Catalog.liveTables
    rw [hde]
    simp [hdecT, List.mem_append]
  have hmemT4 : ∀ t' : DataTable, (t' ∈ Catalog.liveTables S4 ↔
      t' ∈ (l₁.map (fun d => d.tables)).flatten ∨ t' ∈ m₁ ∨ t' ∈ m₂ ∨
        t' ∈ (l₂.map (fun d => d.tables)).flatten) := by
    intro t'
    show t' ∈ (List.map (fun d => d.tables)
      (l₁ ++ { db with tables := m₁ ++ m₂ } :: l₂)).flatten ↔ _
    simp [List.mem_append]
  have hsub4 : ∀ t' : DataTable, t' ∈ Catalog.liveTables S4 → t' ∈ Catalog.liveTables s := by
    intro t' ht'
    rcases (hmemT4 t').mp ht' with h | h | h | h
    · exact (hmemTs t').mpr (Or.inl h)
    · exact (hmemTs t').mpr (Or.inr (Or.inl h))
    · exact (hmemTs t').mpr (Or.inr (Or.inr (Or.inr (Or.inl h))))
    · exact (hmemTs t').mpr (Or.inr (Or.inr (Or.inr (Or.inr h))))
  have hmos : (Catalog.liveTables s).map DataTable.oid =
      ((l₁.map (fun d => d.tables)).flatten.map DataTable.oid ++
        m₁.map DataTable.oid) ++ T ::
        (m₂.map DataTable.oid ++ (l₂.map (fun d => d.tables)).flatten.map DataTable.oid) := by
    unfold Catalog.liveTables
    rw [hde]
    simp [hdecT, hToid, List.append_assoc]
  have hmo4 : (Catalog.liveTables S4).map DataTable.oid =
      ((l₁.map (fun d => d.tables)).flatten.map DataTable.oid ++
        m₁.map DataTable.oid) ++
        (m₂.map DataTable.oid ++ (l₂.map (fun d => d.tables)).flatten.map DataTable.oid) := by
    show (List.map (fun d => d.tables)
      (l₁ ++ { db with tables := m₁ ++ m₂ } :: l₂)).flatten.map DataTable.oid = _
    simp [List.append_assoc]
  have hnodups := hinv.tableNodup
  rw [hmos, List.nodup_middle, List.nodup_cons] at hnodups
  have hTnot : T ∉ (Catalog.liveTables S4).map DataTable.oid := by
    rw [hmo4]
    exact hnodups.1
  have hnodup4 : ((Catalog.liveTables S4).map DataTable.oid).Nodup := by
    rw [hmo4]
    exact hnodups.2
  have hmoid : S4.databases.map Database.oid = s.databases.map Database.oid := by
    rw [hde]
    show (l₁ ++ { db with tables := m₁ ++ m₂ } :: l₂).map Database.oid = _
    simp
  have hmemD4 : ∀ d' : Database, (d' ∈ S4.databases ↔
      (d' ∈ l₁ ∨ d' ∈ l₂) ∨ d' = { db with tables := m₁ ++ m₂ }) := by
    intro d'
    show d' ∈ l₁ ++ { db with tables := m₁ ++ m₂ } :: l₂ ↔ _
    simp [List.mem_append]
    tauto
  have hmemDs : ∀ d' : Database, (d' ∈ s.databases ↔ (d' ∈ l₁ ∨ d' ∈ l₂) ∨ d' = db) := by
    intro d'
    rw [hde]
    simp [List.mem_append]
    tauto
  refine ⟨?_, ?_, ?_, hnodup4, ?_, ?_, ?_, ?_⟩
  · show (S4.databases.map Database.oid).Nodup
    rw [hmoid]
    exact hinv.dbNodup
  · intro d' hd'
    show d'.oid < s.database_oid_counter
    rcases (hmemD4 d').mp hd' with hd' | rfl
    · exact hinv.dbLt d' ((hmemDs d').mpr (Or.inl hd'))
    · exact hinv.dbLt db ((hmemDs db).mpr (Or.inr rfl))
  · intro o
    show o ∈ S4.databases.map Database.oid ↔ o ∈ s.pgDatabase.map DatabaseTuple.oid
    rw [hmoid]
    exact hinv.dbCorr o
  · intro t' ht'
    exact hinv.tableLt t' (hsub4 t' ht')
  · show ((s.pgTable.filter (fun tt => !(tt.oid == T))).map TableTuple.oid).Nodup
    exact List.Nodup.sublist (List.Sublist.map _ (List.filter_sublist _)) hinv.tableTupNodup
  · intro x y
    constructor
    · intro hp
      obtain ⟨d', hd', hdo, t, htm, hto⟩ := mem_liveTablePairs.mp hp
      have htl4 : t ∈ Catalog.liveTables S4 := mem_liveTables.mpr ⟨d', hd', htm⟩
      have hyT : y ≠ T := by
        intro hy
        apply hTnot
        rw [← hy, ← hto]
        exact List.mem_map_of_mem _ htl4
      have hpairs : (x, y) ∈ Catalog.liveTablePairs s := by
        rcases (hmemD4 d').mp hd' with hd'' | heq
        · exact mem_liveTablePairs.mpr
            ⟨d', (hmemDs d').mpr (Or.inl hd''), hdo, t, htm, hto⟩
        · rw [heq] at hdo htm
          have : t ∈ db.tables := by
            rw [hdecT]
            rcases List.mem_append.mp htm with h | h
            · exact List.mem_append_left _ h
            · exact List.mem_append_right _ (List.mem_cons_of_mem _ h)
          exact mem_liveTablePairs.mpr
            ⟨db, (hmemDs db).mpr (Or.inr rfl), hdo, t, this, hto⟩
      obtain ⟨tt, htt, h1, h2⟩ := (hinv.tablePairs x y).mp hpairs
      refine ⟨tt, List.mem_filter.mpr ⟨htt, ?_⟩, h1, h2⟩
      simp [h1, hyT]
    · rintro ⟨tt, htt, h1, h2⟩
      obtain ⟨httm, httk⟩ := List.mem_filter.mp htt
      have hyT : y ≠ T := by
        intro hy
        rw [h1, hy] at httk
        simp at httk
      obtain hpairs := (hinv.tablePairs x y).mpr ⟨tt, httm, h1, h2⟩
      obtain ⟨d', hd', hdo, t, htm, hto⟩ := mem_liveTablePairs.mp hpairs
      rcases (hmemDs d').mp hd' with hd'' | heq
      · exact mem_liveTablePairs.mpr
          ⟨d', (hmemD4 d').mpr (Or.inl hd''), hdo, t, htm, hto⟩
      · rw [heq] at hdo htm
        rw [hdecT] at htm
        rcases List.mem_append.mp htm with h | h
        · exact mem_liveTablePairs.mpr
            ⟨{ db with tables := m₁ ++ m₂ }, (hmemD4 _).mpr (Or.inr rfl), hdo, t,
              List.mem_append_left _ h, hto⟩
        · rcases List.mem_cons.mp h with rfl | h
          · exact absurd (hToid ▸ hto) (Ne.symm hyT)
          · exact mem_liveTablePairs.mpr
              ⟨{ db with tables := m₁ ++ m₂ }, (hmemD4 _).mpr (Or.inr rfl), hdo, t,
                List.mem_append_right _ h, hto⟩
  · intro x y
    constructor
    · intro hk
      obtain ⟨t', ht', hto, hy⟩ := mem_liveColumnKeys.mp hk
      have hxT : x ≠ T := by
        intro hx
        apply hTnot
        rw [← hx, ← hto]
        exact List.mem_map_of_mem _ ht'
      have hks : (x, y) ∈ Catalog.liveColumnKeys s :=
        mem_liveColumnKeys.mpr ⟨t', hsub4 t' ht', hto, hy⟩
      obtain ⟨ct, hct, h1, h2⟩ := (hinv.colCorr x y).mp hks
      refine ⟨ct, ?_, h1, h2⟩
      rw [mem_deleteColumns]
      refine ⟨hct, ?_⟩
      rintro ⟨hT, _⟩
      exact hxT (h1 ▸ hT)
    · rintro ⟨ct, hct, h1, h2⟩
      rw [mem_deleteColumns] at hct
      obtain ⟨hctm, hnot⟩ := hct
      obtain hks := (hinv.colCorr x y).mpr ⟨ct, hctm, h1, h2⟩
      obtain ⟨t', ht', hto, hy⟩ := mem_liveColumnKeys.mp hks
      rcases (hmemTs t').mp ht' with h | h | heq | h | h
      · exact mem_liveColumnKeys.mpr ⟨t', (hmemT4 t').mpr (Or.inl h), hto, hy⟩
      · exact mem_liveColumnKeys.mpr ⟨t', (hmemT4 t').mpr (Or.inr (Or.inl h)), hto, hy⟩
      · exfalso
        apply hnot
        rw [heq] at hto hy
        exact ⟨by rw [h1, ← hto, hToid], by rwa [h2]⟩
      · exact mem_liveColumnKeys.mpr
          ⟨t', (hmemT4 t').mpr (Or.inr (Or.inr (Or.inl h))), hto, hy⟩
      · exact mem_liveColumnKeys.mpr
          ⟨t', (hmemT4 t').mpr (Or.inr (Or.inr (Or.inr h))), hto, hy⟩

/-- `DropTableWithOid` on a resolvable database and table: result, new state
and invariant. -/
theorem dropTableWithOid_success (s : Catalog) (D T : Nat) (db : Database)
    (table : DataTable) (hinv : CatInv s)
    (hdb : Catalog.GetDatabaseWithOid s D = some db)
    (htab : db.GetTableWithOid T = some table) :
    ∃ s4, Catalog.DropTableWithOid s D T = some (ResultType.SUCCESS, s4) ∧
      CatInv s4 ∧
      s4.pgDatabase = s.pgDatabase ∧
      s4.pgTable = s.pgTable.filter (fun tt => !(tt.oid == T)) ∧
      s4.databases.map Database.oid = s.databases.map Database.oid ∧
      s4.database_oid_counter = s.database_oid_counter ∧
      s4.table_oid_counter = s.table_oid_counter := by
  have hdb' : s.databases.find? (fun d => d.oid == D) = some db := hdb
  have hDoid : db.oid = D := by simpa using List.find?_some hdb'
  have htab' : db.tables.find? (fun t => t.oid == T) = some table := htab
  have hToid : table.oid = T := by simpa using List.find?_some htab'
  obtain ⟨l₁, l₂, hde, hl₁, hpdb, hupdD, hremD⟩ := find?_decomp hdb'
  obtain ⟨m₁, m₂, hdeT, hm₁, hptab, hupdT, hremT⟩ := find?_decomp htab'
  have hinner : (updateFirst (fun t => t.oid == T) DataTable.DropIndexes db.tables) =
      m₁ ++ table.DropIndexes :: m₂ := hupdT _
  have hdbs : updateFirst (fun d => d.oid == D) (fun d => d.DropTableWithOid T)
      (updateFirst (fun d => d.oid == D)
        (fun d => { d with tables := updateFirst (fun t => t.oid == T) DataTable.DropIndexes d.tables })
        s.databases) = l₁ ++ { db with tables := m₁ ++ m₂ } :: l₂ := by
    rw [hupdD]
    rw [updateFirst_middle hl₁ (by simp [hDoid])]
    have htables : ({ db with tables := updateFirst (fun t => t.oid == T) DataTable.DropIndexes db.tables } :
          Database).DropTableWithOid T = { db with tables := m₁ ++ m₂ } := by
      unfold Database.DropTableWithOid
      simp only [hinner]
      rw [removeFirst_middle hm₁ (by simp [DataTable.DropIndexes, hToid])]
    rw [htables]
  refine ⟨{ s with
      databases := l₁ ++ { db with tables := m₁ ++ m₂ } :: l₂
      pgTable := s.pgTable.filter (fun tt => !(tt.oid == T))
      pgColumn := table.schema.foldl (fun acc c => ColumnCatalog.DeleteColumn acc T c.column_name) s.pgColumn },
    ?_, ?_, rfl, rfl, ?_, rfl, rfl⟩
  · unfold Catalog.DropTableWithOid
    simp only [hdb, htab]
    rw [hdbs]
    rfl
  · exact dropCore_inv s D T db table l₁ l₂ m₁ m₂ hinv hde hDoid hdeT hToid
  · show (l₁ ++ { db with tables := m₁ ++ m₂ } :: l₂).map Database.oid = _
    rw [hde]
    simp

/-- `DropTable` on a resolvable database and table succeeds and preserves the
invariant. -/
theorem dropTable_success (s : Catalog) (dn tn : String) (db : Database)
    (table : DataTable) (hinv : CatInv s)
    (hdb : Catalog.GetDatabaseWithName s dn = some db)
    (htab : db.GetTableWithName tn = some table) :
    ∃ s4, Catalog.DropTable s dn tn = some (ResultType.SUCCESS, s4) ∧ CatInv s4 := by
  have hdb' : s.databases.find?
      (fun d => d.oid == DatabaseCatalog.GetDatabaseOid s.pgDatabase dn) = some db := hdb
  have hoid : db.oid = DatabaseCatalog.GetDatabaseOid s.pgDatabase dn := by
    simpa using List.find?_some hdb'
  have hdb'' : s.databases.find? (fun d => d.oid == db.oid) = some db := by
    rw [hoid]
    exact hdb'
  have hdbm : db ∈ s.databases := List.mem_of_find?_eq_some hdb''
  have htab' : db.tables.find? (fun t => t.name == tn) = some table := htab
  have htn : table.name = tn := by simpa using List.find?_some htab'
  obtain ⟨l₁, l₂, hde, hl₁, hpdb, hupdD, hremD⟩ := find?_decomp hdb''
  obtain ⟨m₁, m₂, hdeT, hm₁, hptab, hupdT, hremT⟩ := find?_decomp htab'
  have htmem : table ∈ Catalog.liveTables s := by
    refine mem_liveTables.mpr ⟨db, hdbm, ?_⟩
    rw [hdeT]
    exact List.mem_append_right _ (List.mem_cons_self table m₂)
  have hm₁T : ∀ x ∈ m₁, (x.oid == table.oid) = false := by
    intro x hx
    by_contra hxb
    have hxoid : x.oid = table.oid := by
      have : (x.oid == table.oid) = true := by
        cases hb : (x.oid == table.oid) with
        | true => rfl
        | false => exact absurd hb hxb
      simpa using this
    have hxmem : x ∈ Catalog.liveTables s :=
      mem_liveTables.mpr ⟨db, hdbm, by rw [hdeT]; exact List.mem_append_left _ hx⟩
    have hxeq : x = table :=
      List.inj_on_of_nodup_map hinv.tableNodup hxmem htmem hxoid
    have := hm₁ x hx
    rw [hxeq, htn] at this
    simp at this
  have hinner : updateFirst (fun t => t.name == tn) DataTable.DropIndexes db.tables =
      m₁ ++ table.DropIndexes :: m₂ := hupdT _
  have hdbs : updateFirst (fun d => d.oid == db.oid) (fun d => d.DropTableWithOid table.oid)
      (updateFirst (fun d => d.oid == db.oid)
        (fun d => { d with tables := updateFirst (fun t => t.name == tn) DataTable.DropIndexes d.tables })
        s.databases) = l₁ ++ { db with tables := m₁ ++ m₂ } :: l₂ := by
    rw [hupdD]
    rw [updateFirst_middle hl₁ (by simp)]
    have htables : ({ db with tables := updateFirst (fun t => t.name == tn) DataTable.DropIndexes db.tables } :
          Database).DropTableWithOid table.oid = { db with tables := m₁ ++ m₂ } := by
      unfold Database.DropTableWithOid
      simp only [hinner]
      rw [removeFirst_middle hm₁T (by simp [DataTable.DropIndexes])]
    rw [htables]
  refine ⟨{ s with
      databases := l₁ ++ { db with tables := m₁ ++ m₂ } :: l₂
      pgTable := s.pgTable.filter (fun tt => !(tt.oid == table.oid))
      pgColumn := table.schema.foldl (fun acc c => ColumnCatalog.DeleteColumn acc table.oid c.column_name) s.pgColumn },
    ?_, ?_⟩
  · unfold Catalog.DropTable
    simp only [hdb, htab]
    rw [hdbs]
    rfl
  · exact dropCore_inv s db.oid table.oid db table l₁ l₂ m₁ m₂ hinv hde rfl hdeT rfl

/-- Effect of `DropDatabaseWithOid`'s per-table loop: under the invariant,
dropping every catalog-listed table of database `D` succeeds and leaves no
`pg_table` row for `D`. -/
theorem dropTables_fold (D : Nat) :
    ∀ (l : List Nat) (s : Catalog), CatInv s →
      l.Nodup →
      (∀ T ∈ l, ∃ tt ∈ s.pgTable, tt.oid = T ∧ tt.database_oid = D) →
      (∀ tt ∈ s.pgTable, tt.database_oid = D → tt.oid ∈ l) →
      ∀ s1, l.foldlM
          (fun acc T => (Catalog.DropTableWithOid acc D T).map Prod.snd) s = some s1 →
        CatInv s1 ∧ s1.pgDatabase = s.pgDatabase ∧
        s1.databases.map Database.oid = s.databases.map Database.oid ∧
        s1.database_oid_counter = s.database_oid_counter ∧
        (∀ tt ∈ s1.pgTable, tt.database_oid ≠ D) := by
  intro l
  induction l with
  | nil =>
    intro s hinv _ _ hall s1 h
    rw [List.foldlM_nil] at h
    cases h
    refine ⟨hinv, rfl, rfl, rfl, ?_⟩
    intro tt htt hD
    exact absurd (hall tt htt hD) (by simp)
  | cons T rest ih =>
    intro s hinv hnodup hex hall s1 h
    rw [List.foldlM_cons] at h
    obtain ⟨tt, httm, httO, httD⟩ := hex T (List.mem_cons_self ..)
    obtain hpair := (hinv.tablePairs D T).mpr ⟨tt, httm, httO, httD⟩
    obtain ⟨d, hd, hdo, t, htm, hto⟩ := mem_liveTablePairs.mp hpair
    have hfind : Catalog.GetDatabaseWithOid s D = some d := by
      cases hf : s.databases.find? (fun d' => d'.oid == D) with
      | none =>
        exact absurd (by simp [hdo] : ((fun d' : Database => d'.oid == D) d) = true)
          (by simpa using List.find?_eq_none.mp hf d hd)
      | some d₀ =>
        have hd₀m := List.mem_of_find?_eq_some hf
        have hd₀o : d₀.oid = D := by simpa using List.find?_some hf
        have : d₀ = d :=
          List.inj_on_of_nodup_map hinv.dbNodup hd₀m hd (by rw [hd₀o, hdo])
        rw [← this] at *
        exact hf
    have htfind : ∃ t₀, d.GetTableWithOid T = some t₀ := by
      have : (d.tables.find? (fun t' => t'.oid == T)).isSome :=
        List.find?_isSome.mpr ⟨t, htm, by simp [hto]⟩
      exact Option.isSome_iff_exists.mp this
    obtain ⟨t₀, ht₀⟩ := htfind
    obtain ⟨s4, heq, hinv4, hpgD4, hpgT4, hmoid4, hcD4, hcT4⟩ :=
      dropTableWithOid_success s D T d t₀ hinv hfind ht₀
    rw [heq] at h
    simp only [Option.map_some', Option.some_bind] at h
    have hTnotrest : T ∉ rest := (List.nodup_cons.mp hnodup).1
    obtain ⟨hinv1, hpgD1, hmoid1, hcD1, hnoD⟩ :=
      ih s4 hinv4 (List.nodup_cons.mp hnodup).2
        (by
          intro T' hT'
          obtain ⟨tt', htt'm, htt'O, htt'D⟩ := hex T' (List.mem_cons_of_mem _ hT')
          refine ⟨tt', ?_, htt'O, htt'D⟩
          rw [hpgT4]
          refine List.mem_filter.mpr ⟨htt'm, ?_⟩
          have : T' ≠ T := fun hc => hTnotrest (hc ▸ hT')
          simp [htt'O, this])
        (by
          intro tt' htt' hD'
          rw [hpgT4] at htt'
          obtain ⟨httm', httk'⟩ := List.mem_filter.mp htt'
          have : tt'.oid ≠ T := by simpa using httk'
          have hmem := hall tt' httm' hD'
          rcases List.mem_cons.mp hmem with hc | hc
          · exact absurd hc this
          · exact hc)
        s1 h
    refine ⟨hinv1, ?_, ?_, ?_, hnoD⟩
    · rw [hpgD1, hpgD4]
    · rw [hmoid1, hmoid4]
    · rw [hcD1, hcD4]

/-- A successful `DropDatabaseWithOid` preserves the invariant. -/
theorem dropDatabaseWithOid_inv (s : Catalog) (D : Nat) (hinv : CatInv s)
    (s' : Catalog)
    (h : Catalog.DropDatabaseWithOid s D = some (ResultType.SUCCESS, s')) :
    CatInv s' := by
  unfold Catalog.DropDatabaseWithOid at h
  cases hfold : (TableCatalog.GetTableOids s.pgTable D).foldlM
      (fun acc table_oid => (Catalog.DropTableWithOid acc D table_oid).map Prod.snd) s with
  | none =>
    simp only [hfold, Option.none_bind] at h
    exact absurd h (by simp)
  | some s1 =>
    simp only [hfold, Option.some_bind] at h
    have hnodupl : (TableCatalog.GetTableOids s.pgTable D).Nodup := by
      unfold TableCatalog.GetTableOids
      exact List.Nodup.sublist (List.Sublist.map _ (List.filter_sublist _))
        hinv.tableTupNodup
    have hex : ∀ T ∈ TableCatalog.GetTableOids s.pgTable D,
        ∃ tt ∈ s.pgTable, tt.oid = T ∧ tt.database_oid = D := by
      intro T hT
      unfold TableCatalog.GetTableOids at hT
      obtain ⟨tt, httf, rfl⟩ := List.mem_map.mp hT
      obtain ⟨httm, httk⟩ := List.mem_filter.mp httf
      exact ⟨tt, httm, rfl, by simpa using httk⟩
    have hall : ∀ tt ∈ s.pgTable, tt.database_oid = D →
        tt.oid ∈ TableCatalog.GetTableOids s.pgTable D := by
      intro tt httm hD
      unfold TableCatalog.GetTableOids
      exact List.mem_map_of_mem _ (List.mem_filter.mpr ⟨httm, by simp [hD]⟩)
    obtain ⟨hinv1, hpgD1, hmoid1, hcD1, hnoD⟩ :=
      dropTables_fold D (TableCatalog.GetTableOids s.pgTable D) s hinv hnodupl hex hall
        s1 hfold
    have hdel : DatabaseCatalog.DeleteDatabase s1.pgDatabase D =
        (s1.pgDatabase.any (fun t => t.oid == D),
         s1.pgDatabase.filter (fun t => !(t.oid == D))) := rfl
    simp only [hdel] at h
    cases hany : s1.pgDatabase.any (fun t => t.oid == D) with
    | false =>
      rw [hany] at h
      simp at h
    | true =>
      rw [hany] at h
      simp only [Bool.not_true, Bool.false_eq_true, if_false] at h
      by_cases hany2 : s1.databases.any (fun d => d.oid == D) = true
      case neg =>
        rw [if_neg hany2] at h
        simp at h
      case pos =>
        rw [if_pos hany2] at h
        injection h with h'
        injection h' with hr hs'
        subst hs'
        obtain ⟨d₀m, hd₀⟩ : ∃ d₀, s1.databases.find? (fun d => d.oid == D) = some d₀ := by
          have : (s1.databases.find? (fun d => d.oid == D)).isSome := by
            apply List.find?_isSome.mpr
            obtain ⟨d, hd, hdp⟩ := List.any_eq_true.mp hany2
            exact ⟨d, hd, hdp⟩
          exact Option.isSome_iff_exists.mp this
        obtain ⟨l₁, l₂, hde, hl₁, hpdb, hupdD, hremD⟩ := find?_decomp hd₀
        have hd₀oid : d₀m.oid = D := by simpa using hpdb
        have hd₀mem : d₀m ∈ s1.databases := List.mem_of_find?_eq_some hd₀
        have hempty : d₀m.tables = [] := by
          cases hemp : d₀m.tables with
          | nil => rfl
          | cons t ts =>
            exfalso
            have htl : t ∈ d₀m.tables := by
              rw [hemp]
              exact List.mem_cons_self ..
            have hpair : (D, t.oid) ∈ Catalog.liveTablePairs s1 :=
              mem_liveTablePairs.mpr ⟨d₀m, hd₀mem, hd₀oid, t, htl, rfl⟩
            obtain ⟨tt, httm, _, httD⟩ := (hinv1.tablePairs D t.oid).mp hpair
            exact hnoD tt httm httD
        show CatInv { s1 with
          pgDatabase := s1.pgDatabase.filter (fun t => !(t.oid == D))
          databases := removeFirst (fun d => d.oid == D) s1.databases }
        rw [hremD]
        set S5 : Catalog := { s1 with
          pgDatabase := s1.pgDatabase.filter (fun t => !(t.oid == D))
          databases := l₁ ++ l₂ } with hS5
        have hLTeq : Catalog.liveTables S5 = Catalog.liveTables s1 := by
          show (List.map (fun d => d.tables) (l₁ ++ l₂)).flatten = Catalog.liveTables s1
          unfold Catalog.liveTables
          rw [hde]
          simp [hempty]
        have hPairseq : Catalog.liveTablePairs S5 = Catalog.liveTablePairs s1 := by
          show (List.map (fun d => d.tables.map (fun t => (d.oid, t.oid)))
            (l₁ ++ l₂)).flatten = Catalog.liveTablePairs s1
          unfold Catalog.liveTablePairs
          rw [hde]
          simp [hempty]
        have hKeyseq : Catalog.liveColumnKeys S5 = Catalog.liveColumnKeys s1 := by
          unfold Catalog.liveColumnKeys
          rw [hLTeq]
        have hmonodup := hinv1.dbNodup
        have hmoS : s1.databases.map Database.oid =
            l₁.map Database.oid ++ D :: l₂.map Database.oid := by
          rw [hde]
          simp [hd₀oid]
        rw [hmoS, List.nodup_middle, List.nodup_cons] at hmonodup
        have hDnot : D ∉ l₁.map Database.oid ++ l₂.map Database.oid := hmonodup.1
        refine ⟨?_, ?_, ?_, ?_, ?_, ?_, ?_, ?_⟩
        · show ((l₁ ++ l₂).map Database.oid).Nodup
          have h2 := hmonodup.2
          simpa using h2
        · intro d hd
          show d.oid < s1.database_oid_counter
          have hdm : d ∈ s1.databases := by
            rw [hde]
            rcases List.mem_append.mp hd with hd | hd
            · exact List.mem_append_left _ hd
            · exact List.mem_append_right _ (List.mem_cons_of_mem _ hd)
          exact hinv1.dbLt d hdm
        · intro o
          show o ∈ (l₁ ++ l₂).map Database.oid ↔
            o ∈ (s1.pgDatabase.filter (fun t => !(t.oid == D))).map DatabaseTuple.oid
          have hleft : o ∈ (l₁ ++ l₂).map Database.oid ↔
              o ∈ s1.databases.map Database.oid ∧ o ≠ D := by
            rw [hmoS, List.map_append, List.mem_append, List.mem_append, List.mem_cons]
            constructor
            · intro ho
              refine ⟨by tauto, ?_⟩
              intro hoD
              subst hoD
              exact hDnot (List.mem_append.mpr ho)
            · rintro ⟨ho | ho, hne⟩
              · exact Or.inl ho
              · rcases ho with rfl | ho
                · exact absurd rfl hne
                · exact Or.inr ho
          have hright : o ∈ (s1.pgDatabase.filter (fun t => !(t.oid == D))).map
              DatabaseTuple.oid ↔ o ∈ s1.pgDatabase.map DatabaseTuple.oid ∧ o ≠ D := by
            constructor
            · intro ho
              obtain ⟨tt, httf, rfl⟩ := List.mem_map.mp ho
              obtain ⟨httm, httk⟩ := List.mem_filter.mp httf
              exact ⟨List.mem_map_of_mem _ httm, by simpa using httk⟩
            · rintro ⟨ho, hne⟩
              obtain ⟨tt, httm, rfl⟩ := List.mem_map.mp ho
              exact List.mem_map_of_mem _ (List.mem_filter.mpr ⟨httm, by simpa using hne⟩)
          rw [hleft, hright, hinv1.dbCorr o]
        · show ((Catalog.liveTables S5).map DataTable.oid).Nodup
          rw [hLTeq]
          exact hinv1.tableNodup
        · intro t ht
          show t.oid < s1.table_oid_counter
          rw [hLTeq] at ht
          exact hinv1.tableLt t ht
        · exact hinv1.tableTupNodup
        · intro x y
          rw [hPairseq]
          exact hinv1.tablePairs x y
        · intro x y
          rw [hKeyseq]
          exact hinv1.colCorr x y

theorem applyOp_inv (s : Catalog) (op : DDLOp) (s' : Catalog) (hinv : CatInv s)
    (h : applyOp s op = some (ResultType.SUCCESS, s')) : CatInv s' := by
  cases op with
  | createDatabase n =>
    simp only [applyOp, Option.some.injEq] at h
    have hinv2 := createDatabase_inv s n hinv
    rw [h] at hinv2
    exact hinv2
  | createTable dn tn sch =>
    simp only [applyOp, Option.some.injEq] at h
    exact createTable_inv s dn tn sch hinv ResultType.SUCCESS s' h
  | createPrimaryIndex dn tn =>
    simp only [applyOp, Option.some.injEq] at h
    obtain ⟨h1, h2, h3, h4, h5, h6⟩ := createPrimaryIndex_skel s dn tn
    have hinv2 := catInv_congr h1 h2 h3 h4 h5 h6 hinv
    rw [h] at hinv2
    exact hinv2
  | createIndex dn tn attrs idxn u ty =>
    simp only [applyOp, Option.some.injEq] at h
    obtain ⟨h1, h2, h3, h4, h5, h6⟩ := createIndex_skel s dn tn attrs idxn u ty
    have hinv2 := catInv_congr h1 h2 h3 h4 h5 h6 hinv
    rw [h] at hinv2
    exact hinv2
  | dropTable dn tn =>
    simp only [applyOp] at h
    cases hdb : Catalog.GetDatabaseWithName s dn with
    | none =>
      unfold Catalog.DropTable at h
      simp only [hdb] at h
      exact absurd h (by simp)
    | some db =>
      cases htab : db.GetTableWithName tn with
      | none =>
        unfold Catalog.DropTable at h
        simp only [hdb, htab] at h
        exact Option.noConfusion h
      | some table =>
        obtain ⟨s4, hs4, hinv4⟩ := dropTable_success s dn tn db table hinv hdb htab
        rw [h] at hs4
        injection hs4 with h1
        injection h1 with hr hs
        rw [hs]
        exact hinv4
  | dropTableWithOid dboid toid =>
    simp only [applyOp] at h
    cases hdb : Catalog.GetDatabaseWithOid s dboid with
    | none =>
      unfold Catalog.DropTableWithOid at h
      simp only [hdb] at h
      exact absurd h (by simp)
    | some db =>
      cases htab : db.GetTableWithOid toid with
      | none =>
        unfold Catalog.DropTableWithOid at h
        simp only [hdb, htab] at h
        exact Option.noConfusion h
      | some table =>
        obtain ⟨s4, hs4, hinv4, _⟩ := dropTableWithOid_success s dboid toid db table hinv hdb htab
        rw [h] at hs4
        injection hs4 with h1
        injection h1 with hr hs
        rw [hs]
        exact hinv4
  | dropIndex dboid ioid =>
    simp only [applyOp] at h
    obtain ⟨hr, _⟩ := dropIndex_no_success s dboid ioid ResultType.SUCCESS s' h
    cases hr
  | dropDatabaseWithOid dboid =>
    simp only [applyOp] at h
    exact dropDatabaseWithOid_inv s dboid hinv s' h

theorem catInv_init : CatInv initState := by
  refine ⟨?_, ?_, ?_, ?_, ?_, ?_, ?_, ?_⟩ <;>
    simp [initState, Catalog.liveTables, Catalog.liveTablePairs, Catalog.liveColumnKeys]

theorem execSucc_inv (ops : List DDLOp) : ∀ s0 s : Catalog, CatInv s0 →
    execSucc s0 ops = some s → CatInv s := by
  induction ops with
  | nil =>
    intro s0 s h0 h
    unfold execSucc at h
    cases h
    exact h0
  | cons op rest ih =>
    intro s0 s h0 h
    unfold execSucc at h
    cases happ : applyOp s0 op with
    | none =>
      rw [happ] at h
      exact absurd h (by simp)
    | some p =>
      obtain ⟨r, s1⟩ := p
      cases r with
      | SUCCESS =>
        simp only [happ] at h
        exact ih s1 s (applyOp_inv s0 op s1 h0 happ) h
      | FAILURE =>
        simp only [happ] at h
        exact Option.noConfusion h

theorem consistent_of_catInv {s : Catalog} (hinv : CatInv s) :
    ConsistentDbTableColumn s := by
  refine ⟨hinv.dbCorr, ?_, ?_⟩
  · intro o
    constructor
    · intro ho
      obtain ⟨t, htm, rfl⟩ := List.mem_map.mp ho
      obtain ⟨d, hdm, htd⟩ := mem_liveTables.mp htm
      have hp : (d.oid, t.oid) ∈ Catalog.liveTablePairs s :=
        mem_liveTablePairs.mpr ⟨d, hdm, rfl, t, htd, rfl⟩
      obtain ⟨tt, httm, htto, _⟩ := (hinv.tablePairs d.oid t.oid).mp hp
      exact List.mem_map.mpr ⟨tt, httm, htto⟩
    · intro ho
      obtain ⟨tt, httm, rfl⟩ := List.mem_map.mp ho
      have hp : (tt.database_oid, tt.oid) ∈ Catalog.liveTablePairs s :=
        (hinv.tablePairs tt.database_oid tt.oid).mpr ⟨tt, httm, rfl, rfl⟩
      obtain ⟨d, hdm, hdo, t, htd, hto⟩ := mem_liveTablePairs.mp hp
      exact List.mem_map.mpr ⟨t, mem_liveTables.mpr ⟨d, hdm, htd⟩, hto⟩
  · intro k
    obtain ⟨x, y⟩ := k
    exact hinv.colCorr x y

/-- C1 (amended): after any all-SUCCESS sequence of the listed DDL operations
starting from the fresh catalog, the live databases, tables and columns agree
with the rows of `pg_database`, `pg_table` and `pg_attribute` — the
database/table/column half of the dual-bookkeeping claim holds; the index half
is refuted by `dualBookkeeping_index_cex`. -/
theorem dualBookkeeping_db_table_column (ops : List DDLOp) (s : Catalog)
    (h : execSucc initState ops = some s) : ConsistentDbTableColumn s :=
  consistent_of_catInv (execSucc_inv ops initState s catInv_init h)

theorem dualBookkeeping_db_table_column_witness : ConsistentDbTableColumn c1final :=
  dualBookkeeping_db_table_column c1ops c1final rfl
